import Mathlib

/-!
Verification development for the workflow-engine package of flowgram.ai.

The TypeScript sources are shallowly embedded: classes become namespaces,
methods become functions, mutable fields become explicit state passing.
JavaScript numbers that only ever hold decimal literals are modelled as `ℚ`
with exact decimal semantics; `Date.now()` / `Math.random()` based id
generation is modelled as a deterministic fresh-id counter threaded through
the parser state (the generated ids are opaque tokens in the source and no
property depends on their exact spelling).
-/

namespace Flowgram

/-! ## Core data model (src/packages/workflow-engine/src/core/types.ts) -/

/-- `NodeType` enum from core/types.ts. -/
inductive NodeType where
  | task
  | decision
  | sync_point
  | start
  | end_
  deriving DecidableEq, Repr

/-- `DependencyType` enum from core/types.ts. -/
inductive DependencyType where
  | sequential
  | conditional
  | sync
  deriving DecidableEq, Repr

/-- `ResourceType` enum from core/types.ts. -/
inductive ResourceType where
  | cpu
  | memory
  | gpu
  | custom
  deriving DecidableEq, Repr

/-- `ConditionOperator` enum from core/types.ts (11 members). -/
inductive ConditionOperator where
  | equals
  | not_equals
  | greater_than
  | less_than
  | greater_than_or_equals
  | less_than_or_equals
  | contains
  | not_contains
  | starts_with
  | ends_with
  | regex
  deriving DecidableEq, Repr

/-- Dynamic JS values that flow through `parameters` objects and condition
right operands: string | number | boolean | array | nested object.
Numbers are modelled as `ℚ` (exact decimals). -/
inductive JValue where
  | str (s : String)
  | num (q : ℚ)
  | bool (b : Bool)
  | arr (xs : List JValue)
  | obj (fields : List (String × JValue))
  deriving Repr

/-- `Condition` interface from core/types.ts.  `rightOperand` is
`string | number | boolean` in the interface but the parser can also store
arrays/objects through `parseValue`, so the dynamic `JValue` type is used.
The only `metadata` field the engine reads or writes on a condition is
`targetName`, modelled directly as `metaTargetName`. -/
structure Condition where
  leftOperand : String
  operator : ConditionOperator
  rightOperand : JValue
  metaTargetName : Option String := none
  deriving Repr

/-- `ResourceRequirement` interface from core/types.ts. -/
structure ResourceRequirement where
  resourceType : ResourceType
  amount : ℚ
  resourceId : Option String := none
  deriving DecidableEq, Repr

/-- `SyncPointConfig` from core/types.ts.  `waitForAll` is required in the
interface but the parser creates `{ requiredSources: [] }` objects that leave
it undefined, so it is modelled as optional. -/
structure SyncPointConfig where
  requiredSources : List String := []
  waitForAll : Option Bool := none
  timeout : Option ℚ := none
  deriving DecidableEq, Repr

/-- Visualization position from core/types.ts. -/
structure Position where
  x : ℚ
  y : ℚ
  deriving DecidableEq, Repr

/-- Visualization size from core/types.ts. -/
structure Size where
  width : ℚ
  height : ℚ
  deriving DecidableEq, Repr

/-- A workflow node.  The TS code declares `WorkflowNode` plus per-type
extensions (`TaskNode`, `DecisionNode`, ...) but builds nodes as dynamic
objects (`const node: any = ...` in the parser), so the embedding is a single
record carrying every field any node variant can hold, each optional unless
universally present.  `trackName` / `defaultTargetName` are the pending name
references the parser stores for later resolution. -/
structure WorkflowNode where
  id : String
  type : NodeType
  name : String
  description : Option String := none
  trackId : Option String := none
  trackName : Option String := none
  position : Option Position := none
  size : Option Size := none
  resourceRequirements : Option (List ResourceRequirement) := none
  taskType : Option String := none
  parameters : Option (List (String × JValue)) := none
  timeout : Option ℚ := none
  retries : Option ℚ := none
  conditions : Option (List Condition) := none
  defaultTargetId : Option String := none
  defaultTargetName : Option String := none
  config : Option SyncPointConfig := none
  deriving Repr

/-- `Track` interface from core/types.ts. -/
structure Track where
  id : String
  name : String
  description : Option String := none
  nodeIds : List String := []
  deriving DecidableEq, Repr

/-- `Dependency` interface from core/types.ts.  `isDefault` is set
dynamically by the parser on conditional dependencies marked `default`. -/
structure Dependency where
  sourceId : String
  targetId : String
  type : DependencyType
  condition : Option Condition := none
  isDefault : Bool := false
  deriving Repr

/-- Workflow-level `metadata` map (`Record<string, any>`). -/
abbrev Metadata := List (String × JValue)

/-- `Workflow` interface from core/types.ts. -/
structure Workflow where
  id : String
  name : String
  description : Option String := none
  version : Option String := none
  nodes : List WorkflowNode := []
  dependencies : List Dependency := []
  tracks : List Track := []
  metadata : Option Metadata := none
  deriving Repr

/-- `ValidationError` interface from core/types.ts. -/
structure ValidationError where
  code : String
  message : String
  nodeId : Option String := none
  dependencyIds : Option (List String) := none
  trackId : Option String := none
  deriving DecidableEq, Repr

/-- `ValidationResult` interface from core/types.ts. -/
structure ValidationResult where
  valid : Bool
  errors : List ValidationError
  deriving DecidableEq, Repr

/-- `WorkflowSerialized` from core/types.ts: the JSON interchange shape in
which nodes and tracks live in records keyed by id.  A JS record is modelled
as an association list with JS own-property insertion semantics. -/
structure WorkflowSerialized where
  id : String
  name : String
  description : Option String := none
  version : Option String := none
  nodes : List (String × WorkflowNode) := []
  dependencies : List Dependency := []
  tracks : List (String × Track) := []
  metadata : Option Metadata := none
  deriving Repr

/-! ## DSL grammar (src/packages/workflow-engine/src/dsl/grammar.ts) -/

/-- `TokenType` enum from grammar.ts. -/
inductive TokenType where
  | WORKFLOW | TRACK | TASK | DECISION | SYNC | START | END
  | DEPENDENCIES | RESOURCES | PARAMETERS | CONDITION | THEN | WHEN
  | DEFAULT | DESCRIPTION | VERSION | TYPE | WAIT_FOR_ALL | TIMEOUT
  | STRING | NUMBER | BOOLEAN
  | LEFT_BRACE | RIGHT_BRACE | LEFT_PAREN | RIGHT_PAREN
  | LEFT_BRACKET | RIGHT_BRACKET | ARROW | COLON | COMMA
  | IDENTIFIER | COMMENT | WHITESPACE | EOF
  deriving DecidableEq, Repr

/-- `Token` interface from grammar.ts.  Line/column are JS numbers and the
lexer's arithmetic can drive a token column below zero, hence `Int`. -/
structure Token where
  type : TokenType
  value : String
  line : Int
  column : Int
  deriving DecidableEq, Repr

/-- `KEYWORDS` lookup table from grammar.ts (`KEYWORDS[value] || IDENTIFIER`). -/
def KEYWORDS (value : String) : TokenType :=
  if value = "workflow" then .WORKFLOW
  else if value = "track" then .TRACK
  else if value = "task" then .TASK
  else if value = "decision" then .DECISION
  else if value = "sync" then .SYNC
  else if value = "start" then .START
  else if value = "end" then .END
  else if value = "dependencies" then .DEPENDENCIES
  else if value = "resources" then .RESOURCES
  else if value = "parameters" then .PARAMETERS
  else if value = "condition" then .CONDITION
  else if value = "then" then .THEN
  else if value = "when" then .WHEN
  else if value = "default" then .DEFAULT
  else if value = "description" then .DESCRIPTION
  else if value = "version" then .VERSION
  else if value = "type" then .TYPE
  else if value = "wait_for_all" then .WAIT_FOR_ALL
  else if value = "timeout" then .TIMEOUT
  else if value = "true" then .BOOLEAN
  else if value = "false" then .BOOLEAN
  else .IDENTIFIER

/-! ## Lexer (src/packages/workflow-engine/src/dsl/dsl-parser.ts, `tokenize`) -/

/-- JS `/\s/` whitespace class (ASCII part; exotic unicode spaces are not
exercised by this grammar). -/
def isWsChar (c : Char) : Bool :=
  c = ' ' ∨ c = '\t' ∨ c = '\n' ∨ c = '\r' ∨ c = '\x0b' ∨ c = '\x0c'

/-- JS `/[0-9]/`. -/
def isDigitChar (c : Char) : Bool :=
  '0' ≤ c ∧ c ≤ '9'

/-- JS `/[a-zA-Z_]/`. -/
def isAlphaUnd (c : Char) : Bool :=
  ('a' ≤ c ∧ c ≤ 'z') ∨ ('A' ≤ c ∧ c ≤ 'Z') ∨ c = '_'

/-- JS `/[a-zA-Z0-9_]/`. -/
def isAlnumUnd (c : Char) : Bool :=
  isAlphaUnd c ∨ isDigitChar c

/-- JS `/[0-9.]/`, the character class the number rule consumes. -/
def isNumChar (c : Char) : Bool :=
  isDigitChar c ∨ c = '.'

/-- Error raised by `tokenize`.  The source throws a JS `Error` whose message
interpolates the character and the lexer's line/column counters; the
constructor keeps those data explicit.  `fuel` is an artifact of the
fuel-based embedding and is proved unreachable for the fuel `tokenize`
supplies. -/
inductive LexError where
  | unexpectedChar (c : Char) (line column : Int)
  | fuel
  deriving DecidableEq, Repr

namespace DslParser

/-- Result of scanning the interior of a block comment. -/
structure BlockScan where
  content : List Char
  rest : List Char
  line : Int
  col : Int

/-- The `/* */` interior loop: consume until `*/` or end of input, updating
line/column per character exactly as the source does. -/
def scanBlock : List Char → Int → Int → BlockScan
  | [], l, c => ⟨[], [], l, c⟩
  | x :: rest, l, c =>
    if x = '*' ∧ rest.head? = some '/' then ⟨[], x :: rest, l, c⟩
    else
      let r := scanBlock rest (if x = '\n' then l + 1 else l) (if x = '\n' then 1 else c + 1)
      ⟨x :: r.content, r.rest, r.line, r.col⟩

/-- Result of scanning the interior of a string literal. -/
structure StrScan where
  content : List Char
  rest : List Char
  line : Int
  col : Int

/-- The string-literal interior loop: consume until an unescaped `"` or end
of input; a backslash followed by any character is copied verbatim (two
characters, column advanced by two — escapes are not decoded). -/
def scanStr : List Char → Int → Int → StrScan
  | [], l, c => ⟨[], [], l, c⟩
  | x :: rest, l, c =>
    if x = '"' then ⟨[], x :: rest, l, c⟩
    else if x = '\\' then
      match rest with
      | y :: rest2 =>
        let r := scanStr rest2 l (c + 2)
        ⟨x :: y :: r.content, r.rest, r.line, r.col⟩
      | [] =>
        -- a lone trailing backslash takes the ordinary-character path
        let r := scanStr [] l (c + 1)
        ⟨x :: r.content, r.rest, r.line, r.col⟩
    else
      let r := scanStr rest (if x = '\n' then l + 1 else l) (if x = '\n' then 1 else c + 1)
      ⟨x :: r.content, r.rest, r.line, r.col⟩

/-- One fuel-indexed pass of `DslParser.tokenize`'s character loop.  Each
iteration consumes at least one character, so the fuel `tokenize` passes
(`length + 1`) can never run out; the `.error .fuel` branch is dead code
needed only to make the recursion structural. -/
def tokenizeAux : Nat → List Char → Int → Int → List Token → Except LexError (List Token)
  | 0, _, _, _, _ => .error .fuel
  | _ + 1, [], line, col, acc => .ok (acc ++ [⟨.EOF, "", line, col⟩])
  | f + 1, c :: rest, line, col, acc =>
    if isWsChar c then
      if c = '\n' then tokenizeAux f rest (line + 1) 1 acc
      else tokenizeAux f rest line (col + 1) acc
    else if c = '/' ∧ rest.head? = some '/' then
      let body := rest.tail.takeWhile (fun ch => ch ≠ '\n')
      let comment := "//" ++ String.mk body
      tokenizeAux f (rest.tail.dropWhile (fun ch => ch ≠ '\n')) line
        (col + (comment.length : Int)) (acc ++ [⟨.COMMENT, comment, line, col⟩])
    else if c = '/' ∧ rest.head? = some '*' then
      let r := scanBlock rest.tail line col
      let comment := "/*" ++ String.mk r.content ++ (if r.rest = [] then "" else "*/")
      tokenizeAux f (r.rest.drop 2) r.line (r.col + (comment.length : Int))
        (acc ++ [⟨.COMMENT, comment, r.line, r.col⟩])
    else if c = '{' then
      tokenizeAux f rest line (col + 1) (acc ++ [⟨.LEFT_BRACE, "\x7b", line, col⟩])
    else if c = '}' then
      tokenizeAux f rest line (col + 1) (acc ++ [⟨.RIGHT_BRACE, "\x7d", line, col⟩])
    else if c = '(' then
      tokenizeAux f rest line (col + 1) (acc ++ [⟨.LEFT_PAREN, "(", line, col⟩])
    else if c = ')' then
      tokenizeAux f rest line (col + 1) (acc ++ [⟨.RIGHT_PAREN, ")", line, col⟩])
    else if c = '[' then
      tokenizeAux f rest line (col + 1) (acc ++ [⟨.LEFT_BRACKET, "[", line, col⟩])
    else if c = ']' then
      tokenizeAux f rest line (col + 1) (acc ++ [⟨.RIGHT_BRACKET, "]", line, col⟩])
    else if c = ':' then
      tokenizeAux f rest line (col + 1) (acc ++ [⟨.COLON, ":", line, col⟩])
    else if c = ',' then
      tokenizeAux f rest line (col + 1) (acc ++ [⟨.COMMA, ",", line, col⟩])
    else if c = '-' ∧ rest.head? = some '>' then
      tokenizeAux f rest.tail line (col + 2) (acc ++ [⟨.ARROW, "->", line, col⟩])
    else if c = '"' then
      let r := scanStr rest line col
      let value : String :=
        if r.rest = [] then String.mk r.content.dropLast else String.mk r.content
      tokenizeAux f (r.rest.drop 1) r.line (r.col + 1)
        (acc ++ [⟨.STRING, value, r.line, r.col - (value.length : Int) - 2⟩])
    else if isDigitChar c then
      let value := String.mk ((c :: rest).takeWhile isNumChar)
      tokenizeAux f ((c :: rest).dropWhile isNumChar) line (col + (value.length : Int))
        (acc ++ [⟨.NUMBER, value, line, col⟩])
    else if isAlphaUnd c then
      let value := String.mk ((c :: rest).takeWhile isAlnumUnd)
      tokenizeAux f ((c :: rest).dropWhile isAlnumUnd) line (col + (value.length : Int))
        (acc ++ [⟨KEYWORDS value, value, line, col⟩])
    else .error (.unexpectedChar c line col)

/-- `DslParser.tokenize`: reset lexer state and scan the whole source. -/
def tokenize (source : String) : Except LexError (List Token) :=
  tokenizeAux (source.length + 1) source.data 1 1 []

end DslParser

/-! ## Parser (src/packages/workflow-engine/src/dsl/dsl-parser.ts) -/

/-- Errors thrown during parsing.  `atToken` models
`this.error(token, message)` (message ++ " at line L, column C"); `plain`
models a bare `new Error(message)`; `lex` wraps a lexer error; `fuel` is the
unreachable out-of-fuel artifact of the embedding. -/
inductive EngErr where
  | atToken (msg : String) (line column : Int)
  | plain (msg : String)
  | lex (e : LexError)
  | fuel
  deriving DecidableEq, Repr

/-- JS `obj[key] = value` on a record modelled as an association list:
overwrite in place when the key exists, append otherwise. -/
def recordSet {α : Type} (l : List (String × α)) (k : String) (v : α) : List (String × α) :=
  if l.any (fun p => p.1 == k) then l.map (fun p => if p.1 == k then (k, v) else p)
  else l ++ [(k, v)]

/-- Digits-to-Nat accumulator for the `parseFloat` model. -/
def natFromDigits (l : List Char) : ℕ :=
  l.foldl (fun a c => a * 10 + (c.toNat - '0'.toNat)) 0

/-- Model of JS `parseFloat` restricted to the strings the engine feeds it:
nonempty digit-initial strings over `[0-9.]` (lexer NUMBER values) or
`^[0-9]+(\.[0-9]+)?$` matches.  `parseFloat` reads the longest valid prefix
`digits(.digits)?`; the value is represented exactly in `ℚ` instead of as a
binary double. -/
def parseFloatQ (s : String) : ℚ :=
  let ds := s.data.takeWhile isDigitChar
  let rest := s.data.drop ds.length
  let fs := match rest with
    | '.' :: r => r.takeWhile isDigitChar
    | _ => []
  (natFromDigits ds : ℚ) + (natFromDigits fs : ℚ) / ((10 : ℚ) ^ fs.length)

/-- The operator-token table shared verbatim by `parseOperator` and
`parseCondition` (both symbolic and word forms; `=` is also accepted). -/
def mapOperator (s : String) : Option ConditionOperator :=
  if s = "==" ∨ s = "=" ∨ s = "equals" then some .equals
  else if s = "!=" ∨ s = "not_equals" then some .not_equals
  else if s = ">" ∨ s = "greater_than" then some .greater_than
  else if s = "<" ∨ s = "less_than" then some .less_than
  else if s = ">=" ∨ s = "greater_than_or_equals" then some .greater_than_or_equals
  else if s = "<=" ∨ s = "less_than_or_equals" then some .less_than_or_equals
  else if s = "contains" then some .contains
  else if s = "not_contains" then some .not_contains
  else if s = "starts_with" then some .starts_with
  else if s = "ends_with" then some .ends_with
  else if s = "regex" then some .regex
  else none

/-- JS `str.split(/\s+/)`: tokens separated by maximal whitespace runs, with
a leading `""` when the string starts with whitespace and a trailing `""`
when it ends with one; `""` splits to `[""]`.  The `Option` accumulator is
`some cur` while building a token and `none` right after emitting one. -/
def splitWsAux : List Char → Option (List Char) → List String
  | [], some cur => [String.mk cur]
  | [], none => [""]
  | c :: rest, some cur =>
    if isWsChar c then String.mk cur :: splitWsAux rest none
    else splitWsAux rest (some (cur ++ [c]))
  | c :: rest, none =>
    if isWsChar c then splitWsAux rest none
    else splitWsAux rest (some [c])

/-- JS `conditionStr.split(/\s+/)`. -/
def splitWs (s : String) : List String :=
  splitWsAux s.data (some [])

/-- JS `^[0-9]+(\.[0-9]+)?$` test used to sniff numeric right operands. -/
def isDecimalLit (s : String) : Bool :=
  let ds := s.data.takeWhile isDigitChar
  decide (ds ≠ []) &&
    (match s.data.drop ds.length with
     | [] => true
     | '.' :: r => decide (r ≠ []) && r.all isDigitChar
     | _ => false)

namespace DslParser

/-- The body of `DslParser.parseCondition` after the two string tokens have
been read: split the condition string, map the operator token, sniff the
right operand, and record the pending target name in `metadata.targetName`. -/
def condFromString (conditionStr targetName : String) : Except EngErr Condition :=
  match splitWs conditionStr with
  | [leftOperand, operatorStr, rightOperandStr] =>
    match mapOperator operatorStr with
    | none => .error (.plain ("Unknown operator: " ++ operatorStr))
    | some operator =>
      let rightOperand : JValue :=
        if rightOperandStr = "true" then .bool true
        else if rightOperandStr = "false" then .bool false
        else if isDecimalLit rightOperandStr then .num (parseFloatQ rightOperandStr)
        else .str rightOperandStr
      .ok { leftOperand, operator, rightOperand, metaTargetName := some targetName }
  | _ => .error (.plain ("Invalid condition format: " ++ conditionStr))

/-- Parser instance state: the token array, the cursor, and the fresh-id
counter standing in for `Date.now()` / `Math.random()`. -/
structure PState where
  tokens : List Token
  current : Nat
  gen : Nat

/-- `this.peek()` (`this.tokens[this.current]`; the EOF sentinel keeps the
access in bounds whenever the token list came from `tokenize`). -/
def peekT (st : PState) : Token :=
  st.tokens.getD st.current ⟨.EOF, "", 0, 0⟩

/-- `this.previous()`. -/
def prevT (st : PState) : Token :=
  st.tokens.getD (st.current - 1) ⟨.EOF, "", 0, 0⟩

/-- `this.isAtEnd()`. -/
def isAtEnd (st : PState) : Bool :=
  (peekT st).type == .EOF

/-- `this.check(type)`. -/
def checkT (st : PState) (t : TokenType) : Bool :=
  if isAtEnd st then false else (peekT st).type == t

/-- `this.advance()`: move the cursor unless at end, return the token that
was current before the move. -/
def advanceT (st : PState) : Token × PState :=
  if isAtEnd st then (prevT st, st)
  else (peekT st, { st with current := st.current + 1 })

/-- `this.match(type)`. -/
def matchT (st : PState) (t : TokenType) : Bool × PState :=
  if checkT st t then (true, (advanceT st).2) else (false, st)

/-- `this.consume(type, message)`. -/
def consumeT (st : PState) (t : TokenType) (msg : String) : Except EngErr (Token × PState) :=
  if checkT st t then .ok (advanceT st)
  else .error (.atToken msg (peekT st).line (peekT st).column)

/-- `this.parseString()`. -/
def parseStringP (st : PState) : Except EngErr (String × PState) :=
  (consumeT st .STRING "Expected string").map (fun p => (p.1.value, p.2))

/-- `this.parseNumber()`. -/
def parseNumberP (st : PState) : Except EngErr (ℚ × PState) :=
  (consumeT st .NUMBER "Expected number").map (fun p => (parseFloatQ p.1.value, p.2))

/-- `this.parseBoolean()`. -/
def parseBooleanP (st : PState) : Except EngErr (Bool × PState) :=
  (consumeT st .BOOLEAN "Expected boolean").map (fun p => (p.1.value == "true", p.2))

/-- `this.parseIdentifier()`. -/
def parseIdentifierP (st : PState) : Except EngErr (String × PState) :=
  (consumeT st .IDENTIFIER "Expected identifier").map (fun p => (p.1.value, p.2))

/-- `this.parseOperator()`: advance unconditionally, then map the token's
text through the operator table. -/
def parseOperatorP (st : PState) : Except EngErr (ConditionOperator × PState) :=
  let (tok, st') := advanceT st
  match mapOperator tok.value with
  | some op => .ok (op, st')
  | none => .error (.atToken "Expected operator" tok.line tok.column)

/-- `this.parseCondition()` for decision nodes. -/
def parseConditionP (st : PState) : Except EngErr (Condition × PState) := do
  let (conditionStr, st) ← parseStringP st
  let (_, st) ← consumeT st .THEN "Expected then keyword after condition"
  let (targetName, st) ← parseStringP st
  let c ← condFromString conditionStr targetName
  .ok (c, st)

/-- Fresh id supply modelling `` `${prefix}-${Date.now()}-${Math.random().. }` ``:
the generated ids are opaque unique tokens, embedded as a counter. -/
def freshId (pre : String) (st : PState) : String × PState :=
  (pre ++ "-" ++ toString st.gen, { st with gen := st.gen + 1 })

/-- The enum string value interpolated into parser error messages
(`NodeType` members are string-valued in TS). -/
def nodeTypeStr : NodeType → String
  | .task => "task"
  | .decision => "decision"
  | .sync_point => "sync_point"
  | .start => "start"
  | .end_ => "end"

/-- Mode selector folding the mutually recursive `parseValue` /
`parseArray` / `parseObject` (and their element loops) into one fuel-indexed
function so the recursion stays structural. -/
inductive PVMode where
  | value
  | array
  | arrLoop (acc : List JValue)
  | object
  | objLoop (acc : List (String × JValue))

/-- `parseValue` / `parseArray` / `parseObject` from the source, selected by
mode.  `.array`/`.arrLoop` produce `.arr`, `.object`/`.objLoop` produce
`.obj`. -/
def parseValueF : Nat → PVMode → PState → Except EngErr (JValue × PState)
  | 0, _, _ => .error .fuel
  | f + 1, .value, st =>
    if checkT st .STRING then (parseStringP st).map (fun p => (.str p.1, p.2))
    else if checkT st .NUMBER then (parseNumberP st).map (fun p => (.num p.1, p.2))
    else if checkT st .BOOLEAN then (parseBooleanP st).map (fun p => (.bool p.1, p.2))
    else if checkT st .LEFT_BRACKET then parseValueF f .array st
    else if checkT st .LEFT_BRACE then parseValueF f .object st
    else .error (.atToken "Expected value" (peekT st).line (peekT st).column)
  | f + 1, .array, st => do
    let (_, st) ← consumeT st .LEFT_BRACKET "Expected [ for array"
    let (v, st) ← parseValueF f (.arrLoop []) st
    let (_, st) ← consumeT st .RIGHT_BRACKET "Expected ] after array"
    .ok (v, st)
  | f + 1, .arrLoop acc, st =>
    if ¬(checkT st .RIGHT_BRACKET) ∧ ¬(isAtEnd st) then do
      let (v, st) ← parseValueF f .value st
      if checkT st .COMMA then parseValueF f (.arrLoop (acc ++ [v])) (advanceT st).2
      else .ok (.arr (acc ++ [v]), st)
    else .ok (.arr acc, st)
  | f + 1, .object, st => do
    let (_, st) ← consumeT st .LEFT_BRACE "Expected \x7b after parameters keyword"
    let (v, st) ← parseValueF f (.objLoop []) st
    let (_, st) ← consumeT st .RIGHT_BRACE "Expected \x7d after parameters section"
    .ok (v, st)
  | f + 1, .objLoop acc, st =>
    if ¬(checkT st .RIGHT_BRACE) ∧ ¬(isAtEnd st) then
      if checkT st .IDENTIFIER then do
        let (key, st) ← parseIdentifierP st
        let (_, st) ← consumeT st .COLON "Expected : after parameter name"
        let (v, st) ← parseValueF f .value st
        parseValueF f (.objLoop (recordSet acc key v)) st
      else if checkT st .COMMENT then parseValueF f (.objLoop acc) (advanceT st).2
      else .error (.atToken "Expected parameter definition" (peekT st).line (peekT st).column)
    else .ok (.obj acc, st)

/-- `this.parseObject()`: the object production, unwrapped to its field
list.  `parseValueF` in `.object` mode only ever returns `.obj`, so the
fallback arm is dead. -/
def parseObjectP (f : Nat) (st : PState) : Except EngErr (List (String × JValue) × PState) :=
  (parseValueF f .object st).map
    (fun p => (match p.1 with | .obj ps => ps | _ => [], p.2))

/-- `this.parseValue()`. -/
def parseValueP (f : Nat) (st : PState) : Except EngErr (JValue × PState) :=
  parseValueF f .value st

/-- The loop of `this.parseResources()`. -/
def parseResourcesLoop : Nat → PState → List ResourceRequirement →
    Except EngErr (List ResourceRequirement × PState)
  | 0, _, _ => .error .fuel
  | f + 1, st, acc =>
    if ¬(checkT st .RIGHT_BRACE) ∧ ¬(isAtEnd st) then
      if checkT st .IDENTIFIER then do
        let (resourceTypeStr, st) ← parseIdentifierP st
        let (_, st) ← consumeT st .COLON "Expected : after resource type"
        let (amount, st) ← parseNumberP st
        let resourceType : ResourceType :=
          if resourceTypeStr = "cpu" then .cpu
          else if resourceTypeStr = "memory" then .memory
          else if resourceTypeStr = "gpu" then .gpu
          else .custom
        parseResourcesLoop f st (acc ++
          [⟨resourceType, amount,
            if resourceType = .custom then some resourceTypeStr else none⟩])
      else if checkT st .COMMENT then parseResourcesLoop f (advanceT st).2 acc
      else .error (.atToken "Expected resource definition" (peekT st).line (peekT st).column)
    else .ok (acc, st)

/-- `this.parseResources()`. -/
def parseResourcesP (f : Nat) (st : PState) :
    Except EngErr (List ResourceRequirement × PState) := do
  let (_, st) ← consumeT st .LEFT_BRACE "Expected \x7b after resources keyword"
  let (resources, st) ← parseResourcesLoop f st []
  let (_, st) ← consumeT st .RIGHT_BRACE "Expected \x7d after resources section"
  .ok (resources, st)

/-- The property loop of `this.parseNode(type)`. -/
def parseNodeLoop : Nat → NodeType → WorkflowNode → PState →
    Except EngErr (WorkflowNode × PState)
  | 0, _, _, _ => .error .fuel
  | f + 1, type, node, st =>
    if ¬(checkT st .RIGHT_BRACE) ∧ ¬(isAtEnd st) then
      let (m, st1) := matchT st .DESCRIPTION
      if m then do
        let (s, st1) ← parseStringP st1
        parseNodeLoop f type { node with description := some s } st1
      else
      let (m, st1) := matchT st .TRACK
      if m then do
        let (s, st1) ← parseStringP st1
        parseNodeLoop f type { node with trackName := some s } st1
      else
      let (m, st1) := matchT st .TYPE
      if m then
        if type = .task then do
          let (s, st1) ← parseStringP st1
          parseNodeLoop f type { node with taskType := some s } st1
        else
          .error (.atToken ("Type property not valid for " ++ nodeTypeStr type ++ " nodes")
            (peekT st1).line (peekT st1).column)
      else
      let (m, st1) := matchT st .PARAMETERS
      if m then do
        let (ps, st1) ← parseObjectP f st1
        parseNodeLoop f type { node with parameters := some ps } st1
      else
      let (m, st1) := matchT st .RESOURCES
      if m then do
        let (rs, st1) ← parseResourcesP f st1
        parseNodeLoop f type { node with resourceRequirements := some rs } st1
      else
      let (m, st1) := matchT st .CONDITION
      if m then
        if type = .decision then do
          let (condition, st1) ← parseConditionP st1
          parseNodeLoop f type
            { node with conditions := some (node.conditions.getD [] ++ [condition]) } st1
        else
          .error (.atToken ("Condition property not valid for " ++ nodeTypeStr type ++ " nodes")
            (peekT st1).line (peekT st1).column)
      else
      let (m, st1) := matchT st .DEFAULT
      if m then
        if type = .decision then do
          let (s, st1) ← parseStringP st1
          parseNodeLoop f type { node with defaultTargetName := some s } st1
        else
          .error (.atToken ("Default property not valid for " ++ nodeTypeStr type ++ " nodes")
            (peekT st1).line (peekT st1).column)
      else
      let (m, st1) := matchT st .WAIT_FOR_ALL
      if m then
        if type = .sync_point then do
          let (b, st1) ← parseBooleanP st1
          let cfg := node.config.getD { requiredSources := [] }
          parseNodeLoop f type { node with config := some { cfg with waitForAll := some b } } st1
        else
          .error (.atToken ("wait_for_all property not valid for " ++ nodeTypeStr type ++ " nodes")
            (peekT st1).line (peekT st1).column)
      else
      let (m, st1) := matchT st .TIMEOUT
      if m then
        if type = .sync_point then do
          let (n, st1) ← parseNumberP st1
          let cfg := node.config.getD { requiredSources := [] }
          parseNodeLoop f type { node with config := some { cfg with timeout := some n } } st1
        else if type = .task then do
          let (n, st1) ← parseNumberP st1
          parseNodeLoop f type { node with timeout := some n } st1
        else
          .error (.atToken ("timeout property not valid for " ++ nodeTypeStr type ++ " nodes")
            (peekT st1).line (peekT st1).column)
      else
      if checkT st .COMMENT then parseNodeLoop f type node (advanceT st).2
      else .error (.atToken ("Expected " ++ nodeTypeStr type ++ " node property")
        (peekT st).line (peekT st).column)
    else .ok (node, st)

/-- `this.parseNode(type)`. -/
def parseNodeP (f : Nat) (type : NodeType) (st : PState) :
    Except EngErr (WorkflowNode × PState) := do
  let (name, st) ← parseStringP st
  let (_, st) ← consumeT st .LEFT_BRACE ("Expected \x7b after " ++ nodeTypeStr type ++ " node name")
  let (nid, st) := freshId "node" st
  let (node, st) ← parseNodeLoop f type { id := nid, type := type, name := name } st
  let (_, st) ← consumeT st .RIGHT_BRACE
    ("Expected \x7d after " ++ nodeTypeStr type ++ " node definition")
  .ok (node, st)

/-- The property loop of `this.parseTrack()`. -/
def parseTrackLoop : Nat → Track → PState → Except EngErr (Track × PState)
  | 0, _, _ => .error .fuel
  | f + 1, track, st =>
    if ¬(checkT st .RIGHT_BRACE) ∧ ¬(isAtEnd st) then
      let (m, st1) := matchT st .DESCRIPTION
      if m then do
        let (s, st1) ← parseStringP st1
        parseTrackLoop f { track with description := some s } st1
      else
      if checkT st .COMMENT then parseTrackLoop f track (advanceT st).2
      else .error (.atToken "Expected track property" (peekT st).line (peekT st).column)
    else .ok (track, st)

/-- `this.parseTrack()`. -/
def parseTrackP (f : Nat) (st : PState) : Except EngErr (Track × PState) := do
  let (name, st) ← parseStringP st
  let (_, st) ← consumeT st .LEFT_BRACE "Expected \x7b after track name"
  let (tid, st) := freshId "track" st
  let (track, st) ← parseTrackLoop f { id := tid, name := name, nodeIds := [] } st
  let (_, st) ← consumeT st .RIGHT_BRACE "Expected \x7d after track definition"
  .ok (track, st)

/-- The loop of `this.parseDependencies()`.  Endpoints are stored as the raw
source-text names ("will be resolved to actual ID later" in the source). -/
def parseDependenciesLoop : Nat → PState → List Dependency →
    Except EngErr (List Dependency × PState)
  | 0, _, _ => .error .fuel
  | f + 1, st, acc =>
    if ¬(checkT st .RIGHT_BRACE) ∧ ¬(isAtEnd st) then
      if checkT st .STRING then do
        let (sourceName, st) ← parseStringP st
        let (_, st) ← consumeT st .ARROW "Expected -> in dependency definition"
        let (targetName, st) ← parseStringP st
        let (mw, st) := matchT st .WHEN
        if mw then do
          let (l, st) ← parseIdentifierP st
          let (op, st) ← parseOperatorP st
          let (v, st) ← parseValueP f st
          parseDependenciesLoop f st (acc ++
            [{ sourceId := sourceName, targetId := targetName, type := .conditional,
               condition := some { leftOperand := l, operator := op, rightOperand := v } }])
        else
          let (md, st) := matchT st .DEFAULT
          if md then
            parseDependenciesLoop f st (acc ++
              [{ sourceId := sourceName, targetId := targetName, type := .conditional,
                 isDefault := true }])
          else
            parseDependenciesLoop f st (acc ++
              [{ sourceId := sourceName, targetId := targetName, type := .sequential }])
      else if checkT st .COMMENT then parseDependenciesLoop f (advanceT st).2 acc
      else .error (.atToken "Expected dependency definition" (peekT st).line (peekT st).column)
    else .ok (acc, st)

/-- `this.parseDependencies()`. -/
def parseDependenciesP (f : Nat) (st : PState) : Except EngErr (List Dependency × PState) := do
  let (_, st) ← consumeT st .LEFT_BRACE "Expected \x7b after dependencies keyword"
  let (dependencies, st) ← parseDependenciesLoop f st []
  let (_, st) ← consumeT st .RIGHT_BRACE "Expected \x7d after dependencies section"
  .ok (dependencies, st)

/-- The element loop of `this.parseWorkflow()`. -/
def parseWorkflowLoop : Nat → Workflow → PState → Except EngErr (Workflow × PState)
  | 0, _, _ => .error .fuel
  | f + 1, workflow, st =>
    if ¬(checkT st .RIGHT_BRACE) ∧ ¬(isAtEnd st) then
      let (m, st1) := matchT st .DESCRIPTION
      if m then do
        let (s, st1) ← parseStringP st1
        parseWorkflowLoop f { workflow with description := some s } st1
      else
      let (m, st1) := matchT st .VERSION
      if m then do
        let (s, st1) ← parseStringP st1
        parseWorkflowLoop f { workflow with version := some s } st1
      else
      let (m, st1) := matchT st .TRACK
      if m then do
        let (track, st1) ← parseTrackP f st1
        parseWorkflowLoop f { workflow with tracks := workflow.tracks ++ [track] } st1
      else
      let (m, st1) := matchT st .START
      if m then do
        let (node, st1) ← parseNodeP f .start st1
        parseWorkflowLoop f { workflow with nodes := workflow.nodes ++ [node] } st1
      else
      let (m, st1) := matchT st .END
      if m then do
        let (node, st1) ← parseNodeP f .end_ st1
        parseWorkflowLoop f { workflow with nodes := workflow.nodes ++ [node] } st1
      else
      let (m, st1) := matchT st .TASK
      if m then do
        let (node, st1) ← parseNodeP f .task st1
        parseWorkflowLoop f { workflow with nodes := workflow.nodes ++ [node] } st1
      else
      let (m, st1) := matchT st .DECISION
      if m then do
        let (node, st1) ← parseNodeP f .decision st1
        parseWorkflowLoop f { workflow with nodes := workflow.nodes ++ [node] } st1
      else
      let (m, st1) := matchT st .SYNC
      if m then do
        let (node, st1) ← parseNodeP f .sync_point st1
        parseWorkflowLoop f { workflow with nodes := workflow.nodes ++ [node] } st1
      else
      let (m, st1) := matchT st .DEPENDENCIES
      if m then do
        let (dependencies, st1) ← parseDependenciesP f st1
        parseWorkflowLoop f { workflow with dependencies := dependencies } st1
      else
      if checkT st .COMMENT then parseWorkflowLoop f workflow (advanceT st).2
      else .error (.atToken "Expected workflow element" (peekT st).line (peekT st).column)
    else .ok (workflow, st)

/-- `this.parseWorkflow()`. -/
def parseWorkflowP (f : Nat) (st : PState) : Except EngErr (Workflow × PState) := do
  let (_, st) ← consumeT st .WORKFLOW "Expected workflow keyword"
  let (name, st) ← parseStringP st
  let (_, st) ← consumeT st .LEFT_BRACE "Expected \x7b after workflow name"
  let wid := "workflow-" ++ toString st.gen
  let st : PState := { st with gen := st.gen + 1 }
  let (workflow, st) ← parseWorkflowLoop f
    { id := wid, name := name, nodes := [], dependencies := [], tracks := [] } st
  let (_, st) ← consumeT st .RIGHT_BRACE "Expected \x7d after workflow definition"
  .ok (workflow, st)

/-- Fuel budget handed to `parse`: every loop iteration and nested
production consumes at least one token, so a small multiple of the token
count can never be exhausted. -/
def parseFuel (tokens : List Token) : Nat :=
  4 * tokens.length + 64

/-- `DslParser.parse(source)`: tokenize then parse the workflow production.
No name-resolution pass follows. -/
def parse (source : String) : Except EngErr Workflow :=
  match tokenize source with
  | .error e => .error (.lex e)
  | .ok tokens =>
    (parseWorkflowP (parseFuel tokens) { tokens := tokens, current := 0, gen := 0 }).map (·.1)

end DslParser

/-! ## Generator (src/unnamed/part_002, class DslGenerator) -/

/-- JS truthiness of an optional string field (`if (x)`): present and
non-empty. -/
def truthyS : Option String → Bool
  | none => false
  | some s => decide (s ≠ "")

/-- `' '.repeat(indent)`. -/
def spacesN (n : Nat) : String :=
  String.mk (List.replicate n ' ')

/-- JS number-to-string conversion restricted to the rationals this engine
produces.  Integers print as plain digit strings; other values print sign,
integer part, and the (terminating, else 20-digit-truncated) decimal
expansion — exact for every decimal literal the parser can produce. -/
def fracDigitsQ : Nat → ℚ → String
  | 0, _ => ""
  | f + 1, q =>
    if q = 0 then ""
    else
      let d : Int := ⌊q * 10⌋
      toString d ++ fracDigitsQ f (q * 10 - (d : ℚ))

/-- JS `String(number)` model, nonnegative case. -/
def numToStringNN (q : ℚ) : String :=
  if q.den = 1 then toString q.num
  else toString (⌊q⌋) ++ "." ++ fracDigitsQ 20 (q - (⌊q⌋ : ℚ))

/-- JS `String(number)` model. -/
def numToString (q : ℚ) : String :=
  if q < 0 then "-" ++ numToStringNN (-q) else numToStringNN q

namespace DslGenerator

/-- `this.stringifyValue(value)`: quoted strings, JS number printing,
`true`/`false`, bracketed arrays, and braced objects with the source's fixed
four-space/two-space layout. -/
def stringifyValue : JValue → String
  | .str s => "\"" ++ s ++ "\""
  | .num q => numToString q
  | .bool b => if b then "true" else "false"
  | .arr xs =>
    "[" ++ String.intercalate ", " (xs.attach.map (fun x => stringifyValue x.1)) ++ "]"
  | .obj ps =>
    "\x7b\n" ++
      String.join (ps.attach.map (fun p =>
        "    " ++ p.1.1 ++ ": " ++ stringifyValue p.1.2 ++ "\n")) ++
      "  \x7d"
decreasing_by
  · have h := List.sizeOf_lt_of_mem x.2
    simp only [JValue.arr.sizeOf_spec]
    omega
  · have h := List.sizeOf_lt_of_mem p.2
    have h2 : sizeOf p.1.2 < sizeOf p.1 := by
      obtain ⟨a, b⟩ := p.1
      simp only [Prod.mk.sizeOf_spec]
      omega
    simp only [JValue.obj.sizeOf_spec]
    omega

/-- `this.generateConditionExpression(condition)`. -/
def generateConditionExpression (condition : Condition) : String :=
  let operator : String :=
    match condition.operator with
    | .equals => "=="
    | .not_equals => "!="
    | .greater_than => ">"
    | .less_than => "<"
    | .greater_than_or_equals => ">="
    | .less_than_or_equals => "<="
    | .contains => "contains"
    | .not_contains => "not_contains"
    | .starts_with => "starts_with"
    | .ends_with => "ends_with"
    | .regex => "regex"
  condition.leftOperand ++ " " ++ operator ++ " " ++ stringifyValue condition.rightOperand

/-- `this.generateResourceRequirement(resource, indent)`. -/
def generateResourceRequirement (resource : ResourceRequirement) (indent : Nat) : String :=
  let resourceName : String :=
    match resource.resourceType with
    | .cpu => "cpu"
    | .memory => "memory"
    | .gpu => "gpu"
    | .custom => resource.resourceId.getD "custom"
  spacesN indent ++ resourceName ++ ": " ++ numToString resource.amount ++ "\n"

/-- `this.generateTaskProperties(node, indent)`. -/
def generateTaskProperties (node : WorkflowNode) (indent : Nat) : String :=
  let spaces := spacesN indent
  (if truthyS node.taskType then
    spaces ++ "type \"" ++ node.taskType.getD "" ++ "\"\n" else "") ++
  (match node.parameters with
   | some ps =>
     spaces ++ "parameters \x7b\n" ++
       String.join (ps.map (fun p =>
         spaces ++ "  " ++ p.1 ++ ": " ++ stringifyValue p.2 ++ "\n")) ++
       spaces ++ "\x7d\n"
   | none => "") ++
  (match node.timeout with
   | some t => spaces ++ "timeout " ++ numToString t ++ "\n"
   | none => "") ++
  (match node.retries with
   | some r => spaces ++ "retries " ++ numToString r ++ "\n"
   | none => "")

/-- `condition.metadata?.targetName || ''`. -/
def targetNameOrEmpty (condition : Condition) : String :=
  match condition.metaTargetName with
  | some s => s
  | none => ""

/-- `this.generateDecisionProperties(node, indent)`.  Note that the default
branch emits `node.defaultTargetId` verbatim. -/
def generateDecisionProperties (node : WorkflowNode) (indent : Nat) : String :=
  let spaces := spacesN indent
  (match node.conditions with
   | some cs =>
     if cs.length > 0 then
       String.join (cs.map (fun condition =>
         spaces ++ "condition \"" ++ generateConditionExpression condition ++
           "\" then \"" ++ targetNameOrEmpty condition ++ "\"\n"))
     else ""
   | none => "") ++
  (if truthyS node.defaultTargetId then
    spaces ++ "default \"" ++ node.defaultTargetId.getD "" ++ "\"\n" else "")

/-- `this.generateSyncPointProperties(node, indent)`. -/
def generateSyncPointProperties (node : WorkflowNode) (indent : Nat) : String :=
  let spaces := spacesN indent
  match node.config with
  | none => ""
  | some config =>
    (match config.waitForAll with
     | some b => spaces ++ "wait_for_all " ++ (if b then "true" else "false") ++ "\n"
     | none => "") ++
    (match config.timeout with
     | some t => spaces ++ "timeout " ++ numToString t ++ "\n"
     | none => "")

/-- `this.generateNode(node, indent)`.  Note that the track reference emits
`node.trackId` verbatim. -/
def generateNode (node : WorkflowNode) (indent : Nat) : String :=
  let spaces := spacesN indent
  (match node.type with
   | .start => spaces ++ "start \"" ++ node.name ++ "\" \x7b\n"
   | .end_ => spaces ++ "end \"" ++ node.name ++ "\" \x7b\n"
   | .task => spaces ++ "task \"" ++ node.name ++ "\" \x7b\n"
   | .decision => spaces ++ "decision \"" ++ node.name ++ "\" \x7b\n"
   | .sync_point => spaces ++ "sync \"" ++ node.name ++ "\" \x7b\n") ++
  (if truthyS node.description then
    spaces ++ "  description \"" ++ node.description.getD "" ++ "\"\n" else "") ++
  (if truthyS node.trackId then
    spaces ++ "  track \"" ++ node.trackId.getD "" ++ "\"\n" else "") ++
  (match node.type with
   | .task => generateTaskProperties node (indent + 2)
   | .decision => generateDecisionProperties node (indent + 2)
   | .sync_point => generateSyncPointProperties node (indent + 2)
   | _ => "") ++
  (match node.resourceRequirements with
   | some rs =>
     if rs.length > 0 then
       spaces ++ "  resources \x7b\n" ++
         String.join (rs.map (fun r => generateResourceRequirement r (indent + 4))) ++
         spaces ++ "  \x7d\n"
     else ""
   | none => "") ++
  spaces ++ "\x7d\n"

/-- `this.generateTrack(track, indent)`. -/
def generateTrack (track : Track) (indent : Nat) : String :=
  let spaces := spacesN indent
  spaces ++ "track \"" ++ track.name ++ "\" \x7b\n" ++
    (if truthyS track.description then
      spaces ++ "  description \"" ++ track.description.getD "" ++ "\"\n" else "") ++
    spaces ++ "\x7d\n"

/-- The `nodeMap.get(dep.sourceId) || dep.sourceId` lookup: the name of the
last node carrying the id (JS `Map.set` overwrites), falling back to the raw
id when the id is unknown — or when the node's name is the empty string,
since `'' || x` also takes the fallback. -/
def nodeNameForId (nodes : List WorkflowNode) (nid : String) : String :=
  match nodes.reverse.find? (fun n => n.id == nid) with
  | some n => if n.name = "" then nid else n.name
  | none => nid

/-- `this.generateDependencies(dependencies, nodes, indent)`. -/
def generateDependencies (dependencies : List Dependency) (nodes : List WorkflowNode)
    (indent : Nat) : String :=
  let spaces := spacesN indent
  spaces ++ "dependencies \x7b\n" ++
    String.join (dependencies.map (fun dep =>
      let sourceName := nodeNameForId nodes dep.sourceId
      let targetName := nodeNameForId nodes dep.targetId
      spaces ++ "  \"" ++ sourceName ++ "\" -> \"" ++ targetName ++ "\"" ++
        (match dep.type, dep.condition with
         | .conditional, some c => " when \"" ++ generateConditionExpression c ++ "\""
         | .conditional, none => " default"
         | _, _ => "") ++
        "\n")) ++
    spaces ++ "\x7d\n"

/-- `DslGenerator.generate(workflow)`. -/
def generate (workflow : Workflow) : String :=
  "workflow \"" ++ workflow.name ++ "\" \x7b\n" ++
  (if truthyS workflow.description then
    "  description \"" ++ workflow.description.getD "" ++ "\"\n" else "") ++
  (if truthyS workflow.version then
    "  version \"" ++ workflow.version.getD "" ++ "\"\n" else "") ++
  "\n" ++
  (if workflow.tracks.length > 0 then
    "  // Define tracks for parallel execution\n" ++
      String.join (workflow.tracks.map (fun track => generateTrack track 2 ++ "\n"))
   else "") ++
  (if workflow.nodes.length > 0 then
    "  // Define nodes\n" ++
      String.join (workflow.nodes.map (fun node => generateNode node 2 ++ "\n"))
   else "") ++
  (if workflow.dependencies.length > 0 then
    "  // Define dependencies\n" ++
      generateDependencies workflow.dependencies workflow.nodes 2
   else "") ++
  "\x7d\n"

end DslGenerator

/-! ## Validators (src/packages/workflow-engine/src/validation) -/

/-- `ValidationErrorCode` members used by the embedded validators
(core/constants.ts). -/
def CIRCULAR_DEPENDENCY : String := "circular_dependency"

/-- `ValidationErrorCode.ORPHANED_NODE`. -/
def ORPHANED_NODE : String := "orphaned_node"

/-- JS `Set` add (insertion-ordered, no-op when present). -/
def setAdd (l : List String) (x : String) : List String :=
  if l.contains x then l else l ++ [x]

/-- JS `Set` delete. -/
def setDel (l : List String) (x : String) : List String :=
  l.filter (fun y => y ≠ x)

/-- JS `path.slice(-1)`. -/
def jsSliceLast (l : List String) : List String :=
  l.drop (l.length - 1)

/-- The edge strings `cycle[i] -> cycle[(i+1) % len]` pushed into
`dependencyIds`. -/
def arrowPairs (cycle : List String) : List String :=
  (List.range cycle.length).map
    (fun i => cycle.getD i "" ++ "->" ++ cycle.getD ((i + 1) % cycle.length) "")

namespace CircularDependencyValidator

/-- DFS bookkeeping shared across the traversal: the `visited` and
`recursionStack` sets and the error accumulator. -/
structure DfsSt where
  visited : List String
  stack : List String
  errors : List ValidationError

/-- The recursive `dfs(nodeId, path)` helper of
`CircularDependencyValidator.validate`.  The fuel only bounds nesting depth;
each nested call first marks an unvisited node, so depth is bounded by the
node count and the fuel supplied by `validate` cannot run out.  Note that
the source does not pop `recursionStack` on the `return true` path, and that
a cycle's node list is `path.slice(indexOf(nodeId)).concat(nodeId)` — the
entry node appears twice. -/
def dfs (w : Workflow) : Nat → String → List String → DfsSt → DfsSt × Bool
  | 0, _, _, st => (st, false)
  | f + 1, nodeId, path, st =>
    if st.stack.contains nodeId then
      let cycle :=
        (match path.findIdx? (fun id => id == nodeId) with
         | some i => path.drop i
         | none => jsSliceLast path) ++ [nodeId]
      let err : ValidationError :=
        { code := CIRCULAR_DEPENDENCY,
          message := "Circular dependency detected: " ++ String.intercalate " -> " cycle,
          dependencyIds := some (arrowPairs cycle) }
      ({ st with errors := st.errors ++ [err] }, true)
    else if st.visited.contains nodeId then (st, false)
    else
      let st := { st with visited := setAdd st.visited nodeId, stack := setAdd st.stack nodeId }
      let path' := path ++ [nodeId]
      let outs := w.dependencies.filter (fun d => d.sourceId == nodeId)
      let r := outs.foldl
        (fun (p : DfsSt × Bool) d => if p.2 then p else dfs w f d.targetId path' p.1)
        (st, false)
      if r.2 then (r.1, true) else ({ r.1 with stack := setDel r.1.stack nodeId }, false)

/-- `CircularDependencyValidator.validate(workflow)`. -/
def validate (w : Workflow) : List ValidationError :=
  (w.nodes.foldl
    (fun (st : DfsSt) (n : WorkflowNode) =>
      if st.visited.contains n.id then st else (dfs w (w.nodes.length + 2) n.id [] st).1)
    ⟨[], [], []⟩).errors

end CircularDependencyValidator

namespace ValidationService

/-- `validateWorkflow(workflow)`: concatenate the registered validators'
errors; valid iff none. -/
def validateWorkflow (validators : List (Workflow → List ValidationError))
    (workflow : Workflow) : ValidationResult :=
  let errors := validators.foldl (fun acc v => acc ++ v workflow) []
  { valid := errors.length == 0, errors := errors }

/-- `checkCircularDependencies(workflow)`: the service carries a verbatim
copy of the validator's DFS. -/
def checkCircularDependencies (w : Workflow) : List ValidationError :=
  CircularDependencyValidator.validate w

/-- The error pushed per orphaned node. -/
def orphanError (n : WorkflowNode) : ValidationError :=
  { code := ORPHANED_NODE,
    message := "Node \"" ++ n.name ++ "\" (" ++ n.id ++ ") is orphaned with no connections",
    nodeId := some n.id }

/-- `checkOrphanedNodes(workflow)`: skip every node whose id occurs among
the start-typed or end-typed nodes' ids, then flag nodes with no incoming
and no outgoing dependency. -/
def checkOrphanedNodes (workflow : Workflow) : List ValidationError :=
  let startNodeIds := (workflow.nodes.filter (fun n => n.type == .start)).map (·.id)
  let endNodeIds := (workflow.nodes.filter (fun n => n.type == .end_)).map (·.id)
  let nonTerminalNodes := workflow.nodes.filter
    (fun n => ¬(startNodeIds.contains n.id) ∧ ¬(endNodeIds.contains n.id))
  (nonTerminalNodes.filter (fun n =>
    ¬(workflow.dependencies.any (fun d => d.targetId == n.id)) ∧
    ¬(workflow.dependencies.any (fun d => d.sourceId == n.id)))).map orphanError

end ValidationService

/-! ## WorkflowModel (src/unnamed/part_006) -/

namespace WorkflowModel

/-- `getStartNode()`. -/
def getStartNode (w : Workflow) : Option WorkflowNode :=
  w.nodes.find? (fun n => n.type == .start)

/-- `getEndNodes()`. -/
def getEndNodes (w : Workflow) : List WorkflowNode :=
  w.nodes.filter (fun n => n.type == .end_)

/-- `hasValidStructure()`: at least one start node and at least one end
node (reachability is left as a comment in the source). -/
def hasValidStructure (w : Workflow) : Bool :=
  if (getStartNode w).isNone then false
  else if (getEndNodes w).length == 0 then false
  else true

/-- `removeNode(nodeId)`: returns the updated workflow and the boolean the
method returns (`true` iff some node carried the id). -/
def removeNode (w : Workflow) (nodeId : String) : Workflow × Bool :=
  let initialLength := w.nodes.length
  let nodes' := w.nodes.filter (fun n => n.id ≠ nodeId)
  let dependencies' := w.dependencies.filter
    (fun dep => dep.sourceId ≠ nodeId ∧ dep.targetId ≠ nodeId)
  let tracks' := w.tracks.map
    (fun track => { track with nodeIds := track.nodeIds.filter (fun id => id ≠ nodeId) })
  ({ w with nodes := nodes', dependencies := dependencies', tracks := tracks' },
    nodes'.length ≠ initialLength)

end WorkflowModel

/-! ## JsonSerializer (src/unnamed/part_001) -/

namespace JsonSerializer

/-- `serialize(workflow)` up to the final `JSON.stringify`: the
`WorkflowSerialized` value whose node/track records are built by
`reduce((acc, x) => { acc[x.id] = x; return acc }, {})`.
`JSON.stringify ∘ JSON.parse` is the identity on this structure (every field
is JSON-representable and absent optionals stay absent), so the string hop
is modelled as the identity. -/
def serialize (workflow : Workflow) : WorkflowSerialized :=
  { id := workflow.id,
    name := workflow.name,
    description := workflow.description,
    version := workflow.version,
    nodes := workflow.nodes.foldl (fun acc node => recordSet acc node.id node) [],
    dependencies := workflow.dependencies,
    tracks := workflow.tracks.foldl (fun acc track => recordSet acc track.id track) [],
    metadata := workflow.metadata }

/-- `deserialize(data)` after the initial `JSON.parse`: rebuild the
`Workflow` with `Object.values` on the node/track records. -/
def deserialize (s : WorkflowSerialized) : Workflow :=
  { id := s.id,
    name := s.name,
    description := s.description,
    version := s.version,
    nodes := s.nodes.map (·.2),
    dependencies := s.dependencies,
    tracks := s.tracks.map (·.2),
    metadata := s.metadata }

end JsonSerializer

/-! ## Spec-side predicates used to state the claims -/

/-- Modelled from the spec: the §3 reference-integrity invariant over the
id-typed reference fields — dependency endpoints, track member ids, decision
default-target ids, and sync-point required-source ids must name an existing
node (condition targets are stored by *name* in this code base and therefore
have no id-level constraint to check). -/
def refIntegrity (w : Workflow) : Bool :=
  let ids := w.nodes.map (·.id)
  w.dependencies.all (fun d => ids.contains d.sourceId ∧ ids.contains d.targetId) &&
  w.tracks.all (fun t => t.nodeIds.all ids.contains) &&
  w.nodes.all (fun n =>
    (match n.defaultTargetId with
     | some d => ids.contains d
     | none => true) &&
    (match n.config with
     | some c => c.requiredSources.all ids.contains
     | none => true))

/-- The dependency-endpoint and track-membership part of `refIntegrity`
(the part `removeNode` does maintain). -/
def depTrackIntegrity (w : Workflow) : Bool :=
  let ids := w.nodes.map (·.id)
  w.dependencies.all (fun d => ids.contains d.sourceId ∧ ids.contains d.targetId) &&
  w.tracks.all (fun t => t.nodeIds.all ids.contains)

/-- Modelled from the spec: the true line/column of a character position,
scanning a prefix from (1,1), newline advancing the line. -/
def advLine : List Char → Int → Int → Int × Int
  | [], l, c => (l, c)
  | ch :: r, l, c =>
    if ch = '\n' then advLine r (l + 1) 1 else advLine r l (c + 1)

/-- Modelled from the spec: "the first character that matches no lexical
rule" — a character that starts none of the lexer's rules: it is not
whitespace, not a digit, not an identifier character, not one of the eight
single-character symbols, and not a string opener.  (`-` and `/` are only
conditional rule starts: they still fall through when not followed by `>`
resp. `/`/`*`.) -/
def notRuleStart (c : Char) : Prop :=
  isWsChar c = false ∧ isDigitChar c = false ∧ isAlphaUnd c = false ∧
    c ∉ ['\x7b', '\x7d', '(', ')', '[', ']', ':', ','] ∧ c ≠ '"'

/-- Decidable whole-word containment of `pat` inside `s` (used to inspect
generated DSL text). -/
def leadsList : List Char → List Char → Bool
  | _, [] => true
  | [], _ :: _ => false
  | a :: as, b :: bs => a == b && leadsList as bs

/-- `pat` occurs as a contiguous substring of `s`. -/
def strContainsSeg (s pat : String) : Bool :=
  (List.range (s.data.length + 1)).any (fun i => leadsList (s.data.drop i) pat.data)

/-- Modelled from the spec: one-step-per-edge reachability closure used to
phrase "a path from start to end exists". -/
def reachClosure (deps : List Dependency) : Nat → List String → List String
  | 0, acc => acc
  | f + 1, acc =>
    let nxt := ((deps.filter (fun d => acc.contains d.sourceId ∧ ¬(acc.contains d.targetId))).map
      (fun d => d.targetId)).dedup
    if nxt = [] then acc else reachClosure deps f (acc ++ nxt)

/-- `tgt` is reachable from `src` along dependency edges. -/
def reachableB (w : Workflow) (src tgt : String) : Bool :=
  (reachClosure w.dependencies w.dependencies.length [src]).contains tgt

/-! ## Concrete fixtures used by the claim theorems -/

/-- A document whose dependency references name no defined node. -/
def dslC1 : String :=
  "workflow \"W\" \x7b dependencies \x7b \"A\" -> \"B\" \x7d \x7d"

/-- What `parse` returns on `dslC1`. -/
def w1res : Workflow :=
  { id := "workflow-0", name := "W",
    dependencies := [{ sourceId := "A", targetId := "B", type := .sequential }] }

/-- A document with a track reference, a decision default naming an
undefined node, and a dependency to an undefined node. -/
def dslC1b : String :=
  "workflow \"W\" \x7b\n  track \"TrackA\" \x7b\x7d\n  start \"A\" \x7b track \"TrackA\" \x7d\n  decision \"D\" \x7b default \"X\" \x7d\n  dependencies \x7b \"A\" -> \"B\" \x7d\n\x7d"

/-- What `parse` returns on `dslC1b`. -/
def w1bres : Workflow :=
  { id := "workflow-0", name := "W",
    nodes :=
      [{ id := "node-2", type := .start, name := "A", trackName := some "TrackA" },
       { id := "node-3", type := .decision, name := "D", defaultTargetName := some "X" }],
    dependencies := [{ sourceId := "A", targetId := "B", type := .sequential }],
    tracks := [{ id := "track-1", name := "TrackA", nodeIds := [] }] }

/-- Round-trip fixture whose task node carries `retries`. -/
def w2ce : Workflow :=
  { id := "w", name := "W",
    nodes :=
      [{ id := "n1", type := .start, name := "S" },
       { id := "n2", type := .task, name := "T", taskType := some "proc", retries := some 3 },
       { id := "n3", type := .end_, name := "E" }],
    dependencies :=
      [⟨"n1", "n2", .sequential, none, false⟩, ⟨"n2", "n3", .sequential, none, false⟩] }

/-- Round-trip fixture in the fragment the generator/parser pair does
preserve. -/
def w2a : Workflow :=
  { id := "w", name := "W",
    nodes :=
      [{ id := "n1", type := .start, name := "S" },
       { id := "n2", type := .task, name := "T", taskType := some "proc" },
       { id := "n3", type := .end_, name := "E" }],
    dependencies :=
      [⟨"n1", "n2", .sequential, none, false⟩, ⟨"n2", "n3", .sequential, none, false⟩] }

/-- What `parse (generate w2a)` returns. -/
def w2ares : Workflow :=
  { id := "workflow-0", name := "W",
    nodes :=
      [{ id := "node-1", type := .start, name := "S" },
       { id := "node-2", type := .task, name := "T", taskType := some "proc" },
       { id := "node-3", type := .end_, name := "E" }],
    dependencies :=
      [⟨"S", "T", .sequential, none, false⟩, ⟨"T", "E", .sequential, none, false⟩] }

/-- The three-node cycle `A -> B -> C -> A` of the cycle-detection claim. -/
def w4 : Workflow :=
  { id := "w4", name := "W4",
    nodes :=
      [{ id := "A", type := .task, name := "A" },
       { id := "B", type := .task, name := "B" },
       { id := "C", type := .task, name := "C" }],
    dependencies :=
      [⟨"A", "B", .sequential, none, false⟩, ⟨"B", "C", .sequential, none, false⟩,
       ⟨"C", "A", .sequential, none, false⟩] }

/-- The single error `CircularDependencyValidator.validate` reports on `w4`. -/
def w4err : ValidationError :=
  { code := "circular_dependency",
    message := "Circular dependency detected: A -> B -> C -> A",
    dependencyIds := some ["A->B", "B->C", "C->A", "A->A"] }

/-- A node with a track reference and a decision with a default target,
for the generator claims. -/
def w5 : Workflow :=
  { id := "w5", name := "W5",
    nodes :=
      [{ id := "n1", type := .start, name := "S", trackId := some "t1" },
       { id := "n2", type := .decision, name := "D", defaultTargetId := some "n1" },
       { id := "n3", type := .end_, name := "E" }],
    tracks := [{ id := "t1", name := "TrackA", nodeIds := ["n1"] }] }

/- The track-reference and decision nodes of `w5` are repeated as
stand-alone fixtures (`n5track`, `n5dec`) below the validation fixtures. -/

/-- The decision-condition document of the decision-parsing claim. -/
def dslC8 : String :=
  "workflow \"W\" \x7b decision \"D\" \x7b condition \"score > 0.8\" then \"Analyze\" \x7d \x7d"

/-- The condition value produced for `condition "score > 0.8" then
"Analyze"`. -/
def c8cond : Condition :=
  { leftOperand := "score", operator := .greater_than,
    rightOperand := .num (parseFloatQ "0.8"), metaTargetName := some "Analyze" }

/-- What `parse` returns on `dslC8`. -/
def w8res : Workflow :=
  { id := "workflow-0", name := "W",
    nodes := [{ id := "node-1", type := .decision, name := "D", conditions := some [c8cond] }] }


/-- Two nodes sharing one id: a start node and an isolated task node. -/
def wDup : Workflow :=
  { id := "wd", name := "WD",
    nodes :=
      [{ id := "x", type := .start, name := "S" },
       { id := "x", type := .task, name := "T" }] }

/-- The isolated task node of `wOrf`. -/
def wOrfT : WorkflowNode := { id := "t", type := .task, name := "T" }

/-- The start node of `wOrf`. -/
def wOrfS : WorkflowNode := { id := "s", type := .start, name := "S" }

/-- A start node and an isolated task node, no dependencies. -/
def wOrf : Workflow := { id := "wo", name := "WO", nodes := [wOrfS, wOrfT] }

/-- A workflow whose decision's default target is about to be removed. -/
def w9 : Workflow :=
  { id := "w9", name := "W9",
    nodes :=
      [{ id := "n1", type := .start, name := "S" },
       { id := "n2", type := .decision, name := "D", defaultTargetId := some "n1" }] }

/-- Witness fixture for `removeNode`: dependencies and tracks that survive
removal of `"a"`. -/
def w9w : Workflow :=
  { id := "w9w", name := "W9W",
    nodes :=
      [{ id := "a", type := .start, name := "S" },
       { id := "b", type := .task, name := "T" },
       { id := "c", type := .end_, name := "E" }],
    dependencies :=
      [⟨"a", "b", .sequential, none, false⟩, ⟨"b", "c", .sequential, none, false⟩],
    tracks := [{ id := "t", name := "T0", nodeIds := ["a", "b"] }] }

/-- A workflow with nodes but no start node. -/
def wC3a : Workflow :=
  { id := "a", name := "A", nodes := [{ id := "t", type := .task, name := "T" }] }

/-- A workflow with a start node but no end node. -/
def wC3b : Workflow :=
  { id := "b", name := "B", nodes := [{ id := "s", type := .start, name := "S" }] }

/-- The start node of `wC3c`. -/
def wC3cS : WorkflowNode := { id := "s", type := .start, name := "S" }

/-- The end node of `wC3c`. -/
def wC3cE : WorkflowNode := { id := "e", type := .end_, name := "E" }

/-- One start, one end, an acyclic path between them. -/
def wC3c : Workflow :=
  { id := "c", name := "C",
    nodes := [wC3cS, wC3cE],
    dependencies := [⟨"s", "e", .sequential, none, false⟩] }

/-- The node of `w5` that carries a track reference. -/
def n5track : WorkflowNode := { id := "n1", type := .start, name := "S", trackId := some "t1" }

/-- The decision node of `w5` with a default target. -/
def n5dec : WorkflowNode := { id := "n2", type := .decision, name := "D", defaultTargetId := some "n1" }

/-- Serializer round-trip witness fixture. -/
def w10 : Workflow :=
  { id := "w10", name := "W10", description := some "d", version := some "1",
    nodes :=
      [{ id := "A", type := .start, name := "SA" },
       { id := "B", type := .end_, name := "SB" }],
    dependencies := [⟨"A", "B", .sequential, none, false⟩],
    tracks := [{ id := "t1", name := "T1", nodeIds := ["A"] }],
    metadata := some [("k", .str "v")] }

/-! ## Claim C1: name resolution at parse time -/

set_option maxRecDepth 1000000 in
set_option maxHeartbeats 4000000 in
/-- C1 is false on the code: `parse` of a document whose single dependency
names two nodes that are defined nowhere succeeds (it must fail per the
claim), and the returned dependency's `sourceId` is the raw source-text name
`"A"`, not a generated node id — the returned workflow has no nodes at
all. -/
theorem parse_no_resolution_counterexample :
    DslParser.parse dslC1 = .ok w1res ∧ w1res.nodes = [] ∧
    w1res.dependencies.map (fun d => d.sourceId) = ["A"] ∧
    w1res.dependencies.map (fun d => d.targetId) = ["B"] :=
  ⟨by rfl, rfl, rfl, rfl⟩

set_option maxRecDepth 1000000 in
set_option maxHeartbeats 4000000 in
/-- C1 (amended): `parse` performs no name resolution at all.  Dependency
endpoints are returned verbatim in `sourceId`/`targetId`, a node's track
reference is kept as the pending `trackName` (with `trackId` unset), and a
decision's default target is kept as the pending `defaultTargetName` (with
`defaultTargetId` unset); parsing succeeds even when the referenced names
(`"B"`, `"X"`) match no defined node, and the names are never replaced by
the generated ids. -/
theorem parse_no_resolution :
    DslParser.parse dslC1b = .ok w1bres ∧
    w1bres.nodes.map (fun n => (n.trackId, n.trackName)) =
      [(none, some "TrackA"), (none, none)] ∧
    w1bres.nodes.map (fun n => (n.defaultTargetId, n.defaultTargetName)) =
      [(none, none), (none, some "X")] ∧
    w1bres.dependencies.map (fun d => (d.sourceId, d.targetId)) = [("A", "B")] ∧
    (∀ n ∈ w1bres.nodes, n.name ≠ "B") ∧
    (∀ t ∈ w1bres.tracks, t.id ≠ "TrackA") :=
  ⟨by rfl, rfl, rfl, rfl, by decide, by decide⟩

/-! ## Claim C2: parse/generate round trip -/

set_option maxRecDepth 1000000 in
set_option maxHeartbeats 4000000 in
/-- C2 is false on the code: `w2ce` has pairwise distinct node names and no
tracks, yet `parse (generate w2ce)` fails outright — the generator emits a
`retries 3` line for the task node's `retries` field, but `retries` is not a
keyword of the grammar and the node-property loop rejects it. -/
theorem roundtrip_counterexample :
    (w2ce.nodes.map (fun n => n.name)).Nodup ∧
    (w2ce.tracks.map (fun t => t.name)).Nodup ∧
    DslParser.parse (DslGenerator.generate w2ce) =
      .error (.atToken "Expected task node property" 9 5) :=
  ⟨by decide, by decide, by rfl⟩

set_option maxRecDepth 1000000 in
set_option maxHeartbeats 4000000 in
/-- C2 (amended): the round trip does hold on the concrete track-free
workflow `w2a` (a start, a task carrying only name/type/taskType, and an
end, joined by two sequential dependencies whose endpoints name defined
nodes, all names plain alphanumeric): `parse (generate w2a)` succeeds and
agrees with `w2a` on the node list compared by (name, type, taskType) and
on the dependency list compared by endpoint names (ids are regenerated, so
names are the only possible comparison key). -/
theorem roundtrip_simple :
    DslParser.parse (DslGenerator.generate w2a) = .ok w2ares ∧
    w2ares.name = w2a.name ∧
    w2ares.nodes.map (fun n => (n.name, n.type, n.taskType)) =
      w2a.nodes.map (fun n => (n.name, n.type, n.taskType)) ∧
    w2ares.dependencies.map (fun d => (d.sourceId, d.targetId, d.type)) =
      w2a.dependencies.map (fun d =>
        (DslGenerator.nodeNameForId w2a.nodes d.sourceId,
         DslGenerator.nodeNameForId w2a.nodes d.targetId, d.type)) ∧
    w2ares.tracks = [] ∧
    (w2ares.nodes.map (fun n => n.name)).Nodup :=
  ⟨by rfl, rfl, rfl, by rfl, rfl, by decide⟩

/-! ## Claim C4: cycle reporting on A -> B -> C -> A -/

/-- C4 is false on the code: on the three-node cycle the single reported
error's `dependencyIds` has four entries, not one per cycle node — the cycle
array is built as `path.slice(i).concat(nodeId)` = `[A,B,C,A]`, and the
wrap-around edge map then appends the spurious self-edge `"A->A"` after the
three real cycle edges. -/
theorem validate_cycle_abc_counterexample :
    CircularDependencyValidator.validate w4 = [w4err] ∧
    (∀ e ∈ CircularDependencyValidator.validate w4,
      e.dependencyIds ≠ some ["A->B", "B->C", "C->A"]) ∧
    (w4err.dependencyIds.getD []).length = 4 := by
  decide

/-- C4 (amended): on nodes `A,B,C` with edges `A->B, B->C, C->A` the
validator reports exactly one `circular_dependency` error; its message lists
the traversal-order cycle with the entry node repeated
(`A -> B -> C -> A`), and its edge list is the three cycle edges followed by
a spurious self-edge of the entry node (`A->A`) — four entries, one per
element of the repeated-node cycle array. -/
theorem validate_cycle_abc :
    CircularDependencyValidator.validate w4 =
      [{ code := CIRCULAR_DEPENDENCY,
         message := "Circular dependency detected: A -> B -> C -> A",
         dependencyIds := some ["A->B", "B->C", "C->A", "A->A"] }] := by
  decide

/-! ## Claim C8: decision condition parsing -/

/-- `parseFloat` on the literal `"0.8"` is exactly eight tenths. -/
theorem parseFloatQ_08 : parseFloatQ "0.8" = (0.8 : ℚ) := by
  show ((natFromDigits ['0'] : ℚ)) + ((natFromDigits ['8'] : ℚ)) / ((10 : ℚ) ^ 1) = (0.8 : ℚ)
  have h8 : '8'.toNat - '0'.toNat = 8 := rfl
  norm_num [natFromDigits, h8]

set_option maxRecDepth 1000000 in
set_option maxHeartbeats 4000000 in
/-- C8: a decision `condition` string that does not split on whitespace into
exactly three parts is a parse error; `"score > 0.8"` with target
`"Analyze"` yields left operand `score`, the greater-than operator, the
numeric right operand 0.8 (sniffed from the literal), and the pending target
name `Analyze` — both at the condition level and through a full `parse` of a
decision node. -/
theorem parseCondition_spec :
    (∀ s t : String, (splitWs s).length ≠ 3 →
      DslParser.condFromString s t = .error (.plain ("Invalid condition format: " ++ s))) ∧
    DslParser.condFromString "score > 0.8" "Analyze" = .ok c8cond ∧
    c8cond.leftOperand = "score" ∧ c8cond.operator = .greater_than ∧
    c8cond.rightOperand = .num (0.8 : ℚ) ∧ c8cond.metaTargetName = some "Analyze" ∧
    DslParser.parse dslC8 = .ok w8res ∧
    w8res.nodes.map (fun n => n.conditions) = [some [c8cond]] := by
  refine ⟨?_, by rfl, rfl, rfl, ?_, rfl, by rfl, rfl⟩
  · intro s t h
    unfold DslParser.condFromString
    split
    · rename_i l op r heq
      rw [heq] at h
      simp at h
    · rfl
  · show JValue.num (parseFloatQ "0.8") = JValue.num (0.8 : ℚ)
    exact congrArg JValue.num parseFloatQ_08

/-- Witness for `parseCondition_spec`: the malformed shape hypothesis
discharged at the concrete two-part condition string `"a b"`. -/
theorem parseCondition_spec_witness :
    DslParser.condFromString "a b" "T" =
      .error (.plain ("Invalid condition format: " ++ "a b")) :=
  parseCondition_spec.1 "a b" "T" (by decide)

/-! ## Claim C9: removeNode -/

/-- C9 is false on the code: `w9` satisfies the §3 reference-integrity
invariant, `removeNode "n1"` removes the start node and returns `true`, but
the surviving decision node still carries `defaultTargetId = "n1"`, which now
dangles — decision default targets (and sync required sources) are not
cleaned, so reference integrity is not preserved. -/
theorem removeNode_integrity_counterexample :
    refIntegrity w9 = true ∧
    (WorkflowModel.removeNode w9 "n1").2 = true ∧
    ((WorkflowModel.removeNode w9 "n1").1.nodes.map (fun n => (n.id, n.defaultTargetId))) =
      [("n2", some "n1")] ∧
    ((WorkflowModel.removeNode w9 "n1").1.nodes.map (fun n => n.id)).contains "n1" = false ∧
    refIntegrity (WorkflowModel.removeNode w9 "n1").1 = false := by
  decide

/-! ## Claim C3: structural well-formedness -/

/-- C3: a workflow with nodes but no start-typed node is invalid, a workflow
with no end-typed node is invalid, and a workflow carrying one start node,
one end node, and an acyclic dependency path from the start to the end is
valid (`hasValidStructure` is the structural well-formedness check of the
model; reachability and acyclicity are stated through the executable
`reachableB` closure and an empty cycle-validator report). -/
theorem hasValidStructure_spec :
    (∀ w : Workflow, w.nodes ≠ [] → (∀ n ∈ w.nodes, n.type ≠ .start) →
      WorkflowModel.hasValidStructure w = false) ∧
    (∀ w : Workflow, (∀ n ∈ w.nodes, n.type ≠ .end_) →
      WorkflowModel.hasValidStructure w = false) ∧
    (∀ (w : Workflow) (s e : WorkflowNode),
      s ∈ w.nodes → s.type = .start → e ∈ w.nodes → e.type = .end_ →
      (w.nodes.filter (fun n => n.type == .start)).length = 1 →
      (w.nodes.filter (fun n => n.type == .end_)).length = 1 →
      reachableB w s.id e.id = true →
      CircularDependencyValidator.validate w = [] →
      WorkflowModel.hasValidStructure w = true) := by
  refine ⟨?_, ?_, ?_⟩
  · intro w _ hno
    have h : WorkflowModel.getStartNode w = none := by
      rw [WorkflowModel.getStartNode, List.find?_eq_none]
      intro n hn
      simpa using hno n hn
    simp [WorkflowModel.hasValidStructure, h]
  · intro w hno
    have h : WorkflowModel.getEndNodes w = [] := by
      rw [WorkflowModel.getEndNodes, List.filter_eq_nil_iff]
      intro n hn
      simpa using hno n hn
    cases hs : (WorkflowModel.getStartNode w).isNone <;>
      simp [WorkflowModel.hasValidStructure, hs, h]
  · intro w s e hs hstype he hetype _ _ _ _
    have h1 : (WorkflowModel.getStartNode w).isNone = false := by
      rw [WorkflowModel.getStartNode]
      rw [Option.isNone_eq_false_iff, List.find?_isSome]
      exact ⟨s, hs, by simp [hstype]⟩
    have h2 : (WorkflowModel.getEndNodes w).length ≠ 0 := by
      rw [WorkflowModel.getEndNodes]
      have : e ∈ w.nodes.filter (fun n => n.type == .end_) :=
        List.mem_filter.mpr ⟨he, by simp [hetype]⟩
      have hp := List.length_pos.mpr (List.ne_nil_of_mem this)
      omega
    simp [WorkflowModel.hasValidStructure, h1, h2]

/-- Witness for `hasValidStructure_spec`: the three parts instantiated at a
start-less workflow, an end-less workflow, and a two-node start-to-end
workflow. -/
theorem hasValidStructure_spec_witness :
    WorkflowModel.hasValidStructure wC3a = false ∧
    WorkflowModel.hasValidStructure wC3b = false ∧
    WorkflowModel.hasValidStructure wC3c = true := by
  refine ⟨hasValidStructure_spec.1 wC3a (by simp [wC3a]) ?_,
          hasValidStructure_spec.2.1 wC3b ?_,
          hasValidStructure_spec.2.2 wC3c wC3cS wC3cE (List.Mem.head _) rfl
            (List.Mem.tail _ (List.Mem.head _)) rfl (by decide) (by decide)
            (by decide) (by decide)⟩
  · intro n hn
    fin_cases hn
    decide
  · intro n hn
    fin_cases hn
    decide

/-! ## Claim C5: generator name emission for track and default references -/

/-- C5 is false on the code: for `w5`'s start node (whose `trackId = "t1"`
points at the track named `"TrackA"`) the generated node block emits the raw
id `t1` and never mentions the track's name, and for `w5`'s decision node
(whose `defaultTargetId = "n1"` points at the node named `"S"`) the
generated block emits the raw id `n1` and never mentions the target's
name. -/
theorem generateNode_emits_raw_ids_counterexample :
    DslGenerator.generateNode n5track 2 = "  start \"S\" \x7b\n    track \"t1\"\n  \x7d\n" ∧
    strContainsSeg (DslGenerator.generateNode n5track 2) "TrackA" = false ∧
    w5.tracks.map (fun t => (t.id, t.name)) = [("t1", "TrackA")] ∧
    DslGenerator.generateNode n5dec 2 = "  decision \"D\" \x7b\n    default \"n1\"\n  \x7d\n" ∧
    strContainsSeg (DslGenerator.generateNode n5dec 2) "S" = false ∧
    w5.nodes.map (fun n => (n.id, n.name)) = [("n1", "S"), ("n2", "D"), ("n3", "E")] := by
  refine ⟨by rfl, by decide, by decide, by rfl, by decide, by decide⟩

/-- Reassociation of the node block around its track line. -/
theorem chainTrack (a b x c d e f : String) :
    a ++ b ++ x ++ c ++ d ++ e ++ f = (a ++ b) ++ x ++ (c ++ d ++ e ++ f) := by
  simp [String.append_assoc]

/-- Reassociation of the node block around the decision default line. -/
theorem chainDefault (a b tr cond x r sp cl : String) :
    a ++ b ++ tr ++ (cond ++ x) ++ r ++ sp ++ cl =
      ((a ++ b) ++ tr ++ cond) ++ x ++ (r ++ sp ++ cl) := by
  simp [String.append_assoc]

/-- C5 (amended): the generator emits the *identifiers* verbatim — for every
node whose `trackId` is a non-empty string `t`, the generated node block
contains the literal line `track "t"`, and for every decision node whose
`defaultTargetId` is a non-empty string `d`, it contains the literal line
`default "d"`; no name lookup happens for either reference (only dependency
endpoints are translated to names). -/
theorem generateNode_emits_raw_ids :
    (∀ (node : WorkflowNode) (indent : Nat) (t : String),
      node.trackId = some t → t ≠ "" →
      ∃ p s, DslGenerator.generateNode node indent =
        p ++ (spacesN indent ++ "  track \"" ++ t ++ "\"\n") ++ s) ∧
    (∀ (node : WorkflowNode) (indent : Nat) (d : String),
      node.type = .decision → node.defaultTargetId = some d → d ≠ "" →
      ∃ p s, DslGenerator.generateNode node indent =
        p ++ (spacesN (indent + 2) ++ "default \"" ++ d ++ "\"\n") ++ s) := by
  constructor
  · intro node indent t ht hne
    simp only [DslGenerator.generateNode, ht, truthyS, hne, ne_eq, not_false_eq_true,
      decide_True, if_true, Option.getD_some]
    exact ⟨_, _, chainTrack _ _ _ _ _ _ _⟩
  · intro node indent d htype hd hne
    simp only [DslGenerator.generateNode, DslGenerator.generateDecisionProperties, htype, hd,
      truthyS, hne, ne_eq, not_false_eq_true, decide_True, if_true, Option.getD_some]
    exact ⟨_, _, chainDefault _ _ _ _ _ _ _ _⟩

/-- Witness for `generateNode_emits_raw_ids` at `w5`'s two reference-carrying
nodes. -/
theorem generateNode_emits_raw_ids_witness :
    (∃ p s, DslGenerator.generateNode n5track 2 =
      p ++ (spacesN 2 ++ "  track \"" ++ "t1" ++ "\"\n") ++ s) ∧
    (∃ p s, DslGenerator.generateNode n5dec 2 =
      p ++ (spacesN (2 + 2) ++ "default \"" ++ "n1" ++ "\"\n") ++ s) :=
  ⟨generateNode_emits_raw_ids.1 n5track 2 "t1" rfl (by decide),
   generateNode_emits_raw_ids.2 n5dec 2 "n1" rfl rfl (by decide)⟩

/-! ## Claim C10: JSON serializer round trip -/

/-- Folding `acc[x.id] = x` over elements with pairwise fresh keys appends
one record entry per element. -/
theorem foldl_recordSet_append {α : Type} (key : α → String) (l : List α) :
    ∀ acc : List (String × α),
      (∀ a ∈ l, ∀ p ∈ acc, p.1 ≠ key a) → (l.map key).Nodup →
      l.foldl (fun acc x => recordSet acc (key x) x) acc =
        acc ++ l.map (fun x => (key x, x)) := by
  induction l with
  | nil => intro acc _ _; simp
  | cons x xs ih =>
    intro acc hdisj hnodup
    have hset : recordSet acc (key x) x = acc ++ [(key x, x)] := by
      rw [recordSet, if_neg]
      simp only [List.any_eq_true, not_exists, not_and]
      intro p hp
      simpa using hdisj x (List.Mem.head _) p hp
    simp only [List.foldl_cons, hset]
    have hcons : (key x :: xs.map key).Nodup := by simpa using hnodup
    rw [ih (acc ++ [(key x, x)]) ?_ hcons.of_cons]
    · simp
    · intro a ha p hp
      rcases List.mem_append.mp hp with hacc | hone
      · exact hdisj a (List.Mem.tail _ ha) p hacc
      · have hpx : p = (key x, x) := by simpa using hone
        have hnotin : key x ∉ xs.map key := (List.nodup_cons.mp hcons).1
        subst hpx
        intro hcontra
        have hkey : key x = key a := hcontra
        exact hnotin (by rw [hkey]; exact List.mem_map_of_mem key ha)

/-- C10: serializing and deserializing a workflow whose node ids and track
ids are pairwise distinct returns the same id, name, description, version,
dependency list and metadata, and the same nodes and tracks (here literally
the same lists, hence in particular the same sets keyed by id). -/
theorem json_roundtrip (w : Workflow)
    (hn : (w.nodes.map (fun n => n.id)).Nodup)
    (ht : (w.tracks.map (fun t => t.id)).Nodup) :
    (JsonSerializer.deserialize (JsonSerializer.serialize w)).id = w.id ∧
    (JsonSerializer.deserialize (JsonSerializer.serialize w)).name = w.name ∧
    (JsonSerializer.deserialize (JsonSerializer.serialize w)).description = w.description ∧
    (JsonSerializer.deserialize (JsonSerializer.serialize w)).version = w.version ∧
    (JsonSerializer.deserialize (JsonSerializer.serialize w)).dependencies = w.dependencies ∧
    (JsonSerializer.deserialize (JsonSerializer.serialize w)).metadata = w.metadata ∧
    (JsonSerializer.deserialize (JsonSerializer.serialize w)).nodes = w.nodes ∧
    (JsonSerializer.deserialize (JsonSerializer.serialize w)).tracks = w.tracks := by
  have hnodes : (JsonSerializer.serialize w).nodes = w.nodes.map (fun n => (n.id, n)) := by
    show w.nodes.foldl (fun acc node => recordSet acc node.id node) [] = _
    rw [foldl_recordSet_append (fun n => n.id) w.nodes [] (by simp) hn]
    rw [List.nil_append]
  have htracks : (JsonSerializer.serialize w).tracks = w.tracks.map (fun t => (t.id, t)) := by
    show w.tracks.foldl (fun acc track => recordSet acc track.id track) [] = _
    rw [foldl_recordSet_append (fun t => t.id) w.tracks [] (by simp) ht]
    rw [List.nil_append]
  refine ⟨rfl, rfl, rfl, rfl, rfl, rfl, ?_, ?_⟩
  · show (JsonSerializer.serialize w).nodes.map (fun p => p.2) = w.nodes
    rw [hnodes, List.map_map]
    show List.map (fun n => n) w.nodes = w.nodes
    exact List.map_id _
  · show (JsonSerializer.serialize w).tracks.map (fun p => p.2) = w.tracks
    rw [htracks, List.map_map]
    show List.map (fun t => t) w.tracks = w.tracks
    exact List.map_id _

/-- Witness for `json_roundtrip` at the concrete workflow `w10`. -/
theorem json_roundtrip_witness :
    (JsonSerializer.deserialize (JsonSerializer.serialize w10)).id = w10.id ∧
    (JsonSerializer.deserialize (JsonSerializer.serialize w10)).nodes = w10.nodes ∧
    (JsonSerializer.deserialize (JsonSerializer.serialize w10)).tracks = w10.tracks :=
  ⟨(json_roundtrip w10 (by decide) (by decide)).1,
   (json_roundtrip w10 (by decide) (by decide)).2.2.2.2.2.2.1,
   (json_roundtrip w10 (by decide) (by decide)).2.2.2.2.2.2.2⟩

/-! ## Claim C6: orphan detection -/

/-- C6 is false on the code as universally stated: in `wDup` the isolated
task node shares its id `"x"` with a start node, the exclusion of
"start/end nodes" is by *id membership* in the start/end id lists, so the
task node is skipped and no `orphaned_node` error is reported although the
node is neither start- nor end-typed and no dependency touches it. -/
theorem checkOrphanedNodes_counterexample :
    ValidationService.checkOrphanedNodes wDup = [] ∧
    wDup.dependencies.length = 0 ∧
    wDup.nodes.map (fun n => (n.id, n.type)) = [("x", .start), ("x", .task)] := by
  decide

/-- C6 (amended): `checkOrphanedNodes` flags `orphaned_node` exactly for
those nodes whose id is not the id of *any* start-typed or end-typed node
and that have no incoming and no outgoing dependency of any type; in
particular a start node with no dependencies is never flagged.  (For
workflows with pairwise-distinct node ids this coincides with the original
claim; with duplicated ids the exclusion is by id, as the counterexample
shows.) -/
theorem checkOrphanedNodes_spec :
    (∀ (w : Workflow) (n : WorkflowNode), n ∈ w.nodes →
      ((∃ e ∈ ValidationService.checkOrphanedNodes w, e.nodeId = some n.id) ↔
        ((∀ s ∈ w.nodes, s.type = .start → s.id ≠ n.id) ∧
         (∀ s ∈ w.nodes, s.type = .end_ → s.id ≠ n.id) ∧
         (∀ d ∈ w.dependencies, d.targetId ≠ n.id) ∧
         (∀ d ∈ w.dependencies, d.sourceId ≠ n.id)))) ∧
    (∀ (w : Workflow) (n : WorkflowNode), n ∈ w.nodes → n.type = .start →
      ¬(∃ e ∈ ValidationService.checkOrphanedNodes w, e.nodeId = some n.id)) := by
  have main : ∀ (w : Workflow) (n : WorkflowNode), n ∈ w.nodes →
      ((∃ e ∈ ValidationService.checkOrphanedNodes w, e.nodeId = some n.id) ↔
        ((∀ s ∈ w.nodes, s.type = .start → s.id ≠ n.id) ∧
         (∀ s ∈ w.nodes, s.type = .end_ → s.id ≠ n.id) ∧
         (∀ d ∈ w.dependencies, d.targetId ≠ n.id) ∧
         (∀ d ∈ w.dependencies, d.sourceId ≠ n.id))) := by
    intro w n hn
    unfold ValidationService.checkOrphanedNodes
    constructor
    · rintro ⟨e, he, hid⟩
      obtain ⟨m, hm, rfl⟩ := List.mem_map.mp he
      have hmid : m.id = n.id := by
        simpa [ValidationService.orphanError] using hid
      obtain ⟨hm1, hdeps⟩ := List.mem_filter.mp hm
      obtain ⟨_, hterm⟩ := List.mem_filter.mp hm1
      rw [decide_eq_true_eq] at hterm hdeps
      refine ⟨?_, ?_, ?_, ?_⟩
      · intro s hs hstype heq
        apply hterm.1
        rw [List.contains_iff_exists_mem_beq]
        exact ⟨s.id, List.mem_map_of_mem _ (List.mem_filter.mpr ⟨hs, by simp [hstype]⟩),
          by simp [heq, hmid]⟩
      · intro s hs hstype heq
        apply hterm.2
        rw [List.contains_iff_exists_mem_beq]
        exact ⟨s.id, List.mem_map_of_mem _ (List.mem_filter.mpr ⟨hs, by simp [hstype]⟩),
          by simp [heq, hmid]⟩
      · intro d hd heq
        exact hdeps.1 (List.any_eq_true.mpr ⟨d, hd, by simp [heq, hmid]⟩)
      · intro d hd heq
        exact hdeps.2 (List.any_eq_true.mpr ⟨d, hd, by simp [heq, hmid]⟩)
    · rintro ⟨hs, he, hin, hout⟩
      refine ⟨ValidationService.orphanError n, List.mem_map_of_mem _ ?_, rfl⟩
      refine List.mem_filter.mpr ⟨List.mem_filter.mpr ⟨hn, ?_⟩, ?_⟩
      · rw [decide_eq_true_eq]
        constructor
        · intro hcontra
          rw [List.contains_iff_exists_mem_beq] at hcontra
          obtain ⟨x, hx, hbeq⟩ := hcontra
          obtain ⟨s, hsmem, rfl⟩ := List.mem_map.mp hx
          obtain ⟨hsnodes, hstype⟩ := List.mem_filter.mp hsmem
          exact hs s hsnodes (by simpa using hstype) (by
            have h2 : n.id = s.id := by simpa using hbeq
            exact h2.symm)
        · intro hcontra
          rw [List.contains_iff_exists_mem_beq] at hcontra
          obtain ⟨x, hx, hbeq⟩ := hcontra
          obtain ⟨s, hsmem, rfl⟩ := List.mem_map.mp hx
          obtain ⟨hsnodes, hstype⟩ := List.mem_filter.mp hsmem
          exact he s hsnodes (by simpa using hstype) (by
            have h2 : n.id = s.id := by simpa using hbeq
            exact h2.symm)
      · rw [decide_eq_true_eq]
        constructor
        · intro hcontra
          obtain ⟨d, hd, hbeq⟩ := List.any_eq_true.mp hcontra
          exact hin d hd (by simpa using hbeq)
        · intro hcontra
          obtain ⟨d, hd, hbeq⟩ := List.any_eq_true.mp hcontra
          exact hout d hd (by simpa using hbeq)
  refine ⟨main, ?_⟩
  intro w n hn htype hex
  exact ((main w n hn).mp hex).1 n hn htype rfl

/-- Witness for `checkOrphanedNodes_spec`: in `wOrf` the isolated task node
is flagged and the start node is not. -/
theorem checkOrphanedNodes_spec_witness :
    (∃ e ∈ ValidationService.checkOrphanedNodes wOrf, e.nodeId = some wOrfT.id) ∧
    ¬(∃ e ∈ ValidationService.checkOrphanedNodes wOrf, e.nodeId = some wOrfS.id) := by
  constructor
  · apply (checkOrphanedNodes_spec.1 wOrf wOrfT (List.Mem.tail _ (List.Mem.head _))).mpr
    refine ⟨?_, ?_, ?_, ?_⟩
    · intro s hs htype
      simp only [wOrf, List.mem_cons, List.not_mem_nil, or_false] at hs
      rcases hs with rfl | rfl
      · decide
      · exact absurd htype (by decide)
    · intro s hs htype
      simp only [wOrf, List.mem_cons, List.not_mem_nil, or_false] at hs
      rcases hs with rfl | rfl
      · exact absurd htype (by decide)
      · exact absurd htype (by decide)
    · intro d hd
      simp [wOrf] at hd
    · intro d hd
      simp [wOrf] at hd
  · exact checkOrphanedNodes_spec.2 wOrf wOrfS (List.Mem.head _) rfl

/-! ## Claim C9 (amended): removeNode behaviour -/

/-- C9 (amended): `removeNode nodeId` keeps exactly the nodes whose id
differs from `nodeId` and the dependencies with neither endpoint equal to
`nodeId`, rewrites every track to the same track with `nodeId` filtered out
of its member list, returns `true` iff some node carried the id — and it
preserves the dependency-endpoint/track-membership part of the
reference-integrity invariant, but (per the counterexample) not the decision
default-target or sync required-source part. -/
theorem removeNode_spec :
    ∀ (w : Workflow) (nodeId : String),
      (∀ n, n ∈ (WorkflowModel.removeNode w nodeId).1.nodes ↔
        (n ∈ w.nodes ∧ n.id ≠ nodeId)) ∧
      (∀ d, d ∈ (WorkflowModel.removeNode w nodeId).1.dependencies ↔
        (d ∈ w.dependencies ∧ d.sourceId ≠ nodeId ∧ d.targetId ≠ nodeId)) ∧
      (∀ t ∈ w.tracks, ∃ t' ∈ (WorkflowModel.removeNode w nodeId).1.tracks,
        t'.id = t.id ∧ t'.name = t.name ∧
        (∀ x, x ∈ t'.nodeIds ↔ (x ∈ t.nodeIds ∧ x ≠ nodeId))) ∧
      (∀ t' ∈ (WorkflowModel.removeNode w nodeId).1.tracks, nodeId ∉ t'.nodeIds) ∧
      ((WorkflowModel.removeNode w nodeId).2 = true ↔ ∃ n ∈ w.nodes, n.id = nodeId) ∧
      (depTrackIntegrity w = true →
        depTrackIntegrity (WorkflowModel.removeNode w nodeId).1 = true) := by
  intro w nodeId
  have hnodes : ∀ n, n ∈ (WorkflowModel.removeNode w nodeId).1.nodes ↔
      (n ∈ w.nodes ∧ n.id ≠ nodeId) := by
    intro n
    show n ∈ w.nodes.filter _ ↔ _
    rw [List.mem_filter, decide_eq_true_eq]
  have hdeps : ∀ d, d ∈ (WorkflowModel.removeNode w nodeId).1.dependencies ↔
      (d ∈ w.dependencies ∧ d.sourceId ≠ nodeId ∧ d.targetId ≠ nodeId) := by
    intro d
    show d ∈ w.dependencies.filter _ ↔ _
    rw [List.mem_filter, decide_eq_true_eq]
  have hids : ∀ x, ((WorkflowModel.removeNode w nodeId).1.nodes.map (fun n => n.id)).contains x
      = true ↔ (∃ n ∈ w.nodes, n.id = x) ∧ x ≠ nodeId := by
    intro x
    rw [List.contains_iff_exists_mem_beq]
    constructor
    · rintro ⟨y, hy, hbeq⟩
      obtain ⟨m, hm, rfl⟩ := List.mem_map.mp hy
      obtain ⟨hmw, hmid⟩ := (hnodes m).mp hm
      have hxy : x = m.id := by simpa using hbeq
      exact ⟨⟨m, hmw, hxy.symm⟩, hxy ▸ hmid⟩
    · rintro ⟨⟨m, hm, hmx⟩, hxid⟩
      refine ⟨m.id, List.mem_map_of_mem _ ((hnodes m).mpr ⟨hm, hmx ▸ hxid⟩), by simp [hmx]⟩
  refine ⟨hnodes, hdeps, ?_, ?_, ?_, ?_⟩
  · intro t htr
    refine ⟨{ t with nodeIds := t.nodeIds.filter (fun id => id ≠ nodeId) },
      List.mem_map_of_mem _ htr, rfl, rfl, ?_⟩
    intro x
    simp only [List.mem_filter, decide_eq_true_eq]
  · intro t' ht' hcontra
    obtain ⟨t, _, rfl⟩ := List.mem_map.mp ht'
    simp only [List.mem_filter, decide_eq_true_eq] at hcontra
    exact hcontra.2 rfl
  · show (decide ¬(w.nodes.filter _).length = w.nodes.length) = true ↔ _
    rw [decide_eq_true_eq]
    constructor
    · intro hne
      by_contra hex
      push_neg at hex
      apply hne
      have hall : ∀ n ∈ w.nodes, (decide ¬n.id = nodeId) = true := by
        intro n hn
        simpa using hex n hn
      rw [List.filter_eq_self.mpr hall]
    · rintro ⟨n, hn, hid⟩ heq
      have hself := (List.filter_sublist (l := w.nodes)
        (p := fun n => decide ¬n.id = nodeId)).eq_of_length heq
      have : n ∈ w.nodes.filter (fun n => decide ¬n.id = nodeId) := hself.symm ▸ hn
      have := (List.mem_filter.mp this).2
      simp [hid] at this
  · intro hint
    unfold depTrackIntegrity at hint ⊢
    simp only [Bool.and_eq_true, List.all_eq_true] at hint ⊢
    obtain ⟨hdint, htint⟩ := hint
    constructor
    · intro d hd
      obtain ⟨hdw, hs, ht⟩ := (hdeps d).mp hd
      have hold := hdint d hdw
      rw [decide_eq_true_eq] at hold
      rw [decide_eq_true_eq]
      have hsrc : ∃ n ∈ w.nodes, n.id = d.sourceId := by
        have := hold.1
        rw [List.contains_iff_exists_mem_beq] at this
        obtain ⟨y, hy, hbeq⟩ := this
        obtain ⟨m, hm, rfl⟩ := List.mem_map.mp hy
        refine ⟨m, hm, ?_⟩
        have h2 : d.sourceId = m.id := by simpa using hbeq
        exact h2.symm
      have htgt : ∃ n ∈ w.nodes, n.id = d.targetId := by
        have := hold.2
        rw [List.contains_iff_exists_mem_beq] at this
        obtain ⟨y, hy, hbeq⟩ := this
        obtain ⟨m, hm, rfl⟩ := List.mem_map.mp hy
        refine ⟨m, hm, ?_⟩
        have h2 : d.targetId = m.id := by simpa using hbeq
        exact h2.symm
      exact ⟨(hids d.sourceId).mpr ⟨hsrc, hs⟩, (hids d.targetId).mpr ⟨htgt, ht⟩⟩
    · intro t' ht'
      obtain ⟨t, htw, rfl⟩ := List.mem_map.mp ht'
      have hold := htint t htw
      intro x hx
      simp only [List.mem_filter, decide_eq_true_eq] at hx
      have hxin := hold x hx.1
      rw [List.contains_iff_exists_mem_beq] at hxin
      obtain ⟨y, hy, hbeq⟩ := hxin
      obtain ⟨m, hm, rfl⟩ := List.mem_map.mp hy
      refine (hids x).mpr ⟨⟨m, hm, ?_⟩, hx.2⟩
      have h2 : x = m.id := by simpa using hbeq
      exact h2.symm

/-- Witness for `removeNode_spec` at `w9w` with node `"a"` removed:
the method returns `true` and dependency/track integrity is preserved. -/
theorem removeNode_spec_witness :
    (WorkflowModel.removeNode w9w "a").2 = true ∧
    depTrackIntegrity (WorkflowModel.removeNode w9w "a").1 = true := by
  constructor
  · exact (removeNode_spec w9w "a").2.2.2.2.1.mpr
      ⟨{ id := "a", type := .start, name := "S" }, List.Mem.head _, rfl⟩
  · exact (removeNode_spec w9w "a").2.2.2.2.2 (by decide)

/-! ## Claim C7: lexer error behaviour -/

/-- `advLine` distributes over append. -/
theorem advLine_append (xs ys : List Char) (l c : Int) :
    advLine (xs ++ ys) l c = advLine ys (advLine xs l c).1 (advLine xs l c).2 := by
  induction xs generalizing l c with
  | nil => simp [advLine]
  | cons x xs ih =>
    by_cases hx : x = '\n' <;> simp [advLine, hx, ih]

/-- Over newline-free text the true position only moves the column. -/
theorem advLine_nonl (xs : List Char) (l c : Int) (h : ∀ ch ∈ xs, ch ≠ '\n') :
    advLine xs l c = (l, c + xs.length) := by
  induction xs generalizing c with
  | nil => simp [advLine]
  | cons x xs ih =>
    have hx : x ≠ '\n' := h x (List.Mem.head _)
    simp only [advLine, if_neg hx]
    rw [ih (c + 1) (fun ch hch => h ch (List.Mem.tail _ hch))]
    refine Prod.ext rfl ?_
    simp
    omega

/-- The block-comment scanner never lengthens the remainder. -/
theorem scanBlock_rest_le : ∀ (cs : List Char) (l c : Int),
    (DslParser.scanBlock cs l c).rest.length ≤ cs.length := by
  intro cs
  induction cs with
  | nil => intro l c; simp [DslParser.scanBlock]
  | cons x rest ih =>
    intro l c
    by_cases h : x = '*' ∧ rest.head? = some '/'
    · simp [DslParser.scanBlock, h]
    · simp only [DslParser.scanBlock, if_neg h]
      have := ih (if x = '\n' then l + 1 else l) (if x = '\n' then 1 else c + 1)
      simpa using Nat.le_succ_of_le this

/-- The string scanner never lengthens the remainder. -/
theorem scanStr_rest_le : ∀ (cs : List Char) (l c : Int),
    (DslParser.scanStr cs l c).rest.length ≤ cs.length := by
  suffices H : ∀ (n : Nat) (cs : List Char), cs.length ≤ n → ∀ (l c : Int),
      (DslParser.scanStr cs l c).rest.length ≤ cs.length by
    exact fun cs l c => H cs.length cs le_rfl l c
  intro n
  induction n with
  | zero =>
    intro cs hcs l c
    rw [List.length_eq_zero.mp (Nat.le_zero.mp hcs)]
    simp [DslParser.scanStr]
  | succ n ih =>
    intro cs hcs l c
    match cs with
    | [] => simp [DslParser.scanStr]
    | x :: rest =>
      by_cases hq : x = '"'
      · have heq : DslParser.scanStr (x :: rest) l c =
            ⟨[], x :: rest, l, c⟩ := by
          rw [DslParser.scanStr.eq_def]
          simp [hq]
        rw [heq]
      · by_cases hb : x = '\\'
        · match rest with
          | [] =>
            have heq : DslParser.scanStr [x] l c =
                ⟨[x], [], l, c + 1⟩ := by
              rw [DslParser.scanStr.eq_def]
              simp [hq, hb, DslParser.scanStr]
            rw [heq]
            simp
          | y :: rest2 =>
            have heq : DslParser.scanStr (x :: y :: rest2) l c =
                ⟨x :: y :: (DslParser.scanStr rest2 l (c + 2)).content,
                 (DslParser.scanStr rest2 l (c + 2)).rest,
                 (DslParser.scanStr rest2 l (c + 2)).line,
                 (DslParser.scanStr rest2 l (c + 2)).col⟩ := by
              rw [DslParser.scanStr.eq_def]
              simp [hq, hb]
            rw [heq]
            have h2 : rest2.length ≤ n := by
              simp at hcs
              omega
            have hr := ih rest2 h2 l (c + 2)
            simp only [List.length_cons]
            omega
        · have heq : DslParser.scanStr (x :: rest) l c =
              ⟨x :: (DslParser.scanStr rest (if x = '\n' then l + 1 else l)
                  (if x = '\n' then 1 else c + 1)).content,
               (DslParser.scanStr rest (if x = '\n' then l + 1 else l)
                  (if x = '\n' then 1 else c + 1)).rest,
               (DslParser.scanStr rest (if x = '\n' then l + 1 else l)
                  (if x = '\n' then 1 else c + 1)).line,
               (DslParser.scanStr rest (if x = '\n' then l + 1 else l)
                  (if x = '\n' then 1 else c + 1)).col⟩ := by
            rw [DslParser.scanStr.eq_def]
            simp [hq, hb]
          rw [heq]
          have h2 : rest.length ≤ n := by
            simp at hcs
            omega
          have hr := ih rest h2 (if x = '\n' then l + 1 else l) (if x = '\n' then 1 else c + 1)
          simp only [List.length_cons]
          omega

/-- Lift an error-position witness over a consumed prefix. -/
theorem errLift (pre rem : List Char) (l co : Int) (c : Char) (l' co' : Int)
    (hex : ∃ i, i < rem.length ∧ rem.getD i ' ' = c ∧
      (l', co') = advLine (rem.take i) (advLine pre l co).1 (advLine pre l co).2) :
    ∃ i, i < (pre ++ rem).length ∧ (pre ++ rem).getD i ' ' = c ∧
      (l', co') = advLine ((pre ++ rem).take i) l co := by
  obtain ⟨i, hi, hgd, hadv⟩ := hex
  have htake : ∀ (a b : List Char) (j : Nat), (a ++ b).take (a.length + j) = a ++ b.take j := by
    intro a
    induction a with
    | nil => simp
    | cons x xs ihx => intro b j; simp [ihx, Nat.succ_add]
  refine ⟨pre.length + i, by simp; omega, ?_, ?_⟩
  · rw [List.getD_append_right pre rem ' ' (pre.length + i) (Nat.le_add_right _ _)]
    simpa using hgd
  · rw [htake, advLine_append]
    exact hadv

/-- `errLift` with the scanner's state-update fact supplied separately. -/
theorem errConvert (pre rem : List Char) (l co l₂ co₂ : Int) (c' : Char) (l' co' : Int)
    (hadv : advLine pre l co = (l₂, co₂))
    (hex : ∃ i, i < rem.length ∧ rem.getD i ' ' = c' ∧
      (l', co') = advLine (rem.take i) l₂ co₂) :
    ∃ i, i < (pre ++ rem).length ∧ (pre ++ rem).getD i ' ' = c' ∧
      (l', co') = advLine ((pre ++ rem).take i) l co := by
  apply errLift
  obtain ⟨i, hi, hg, ha⟩ := hex
  exact ⟨i, hi, hg, by rw [hadv]; exact ha⟩

/-- One-character advance over a non-newline character. -/
theorem advLine_one (c : Char) (l co : Int) (h : ¬c = '\n') :
    advLine [c] l co = (l, co + 1) := by
  simp [advLine, h]

/-- One-character advance over a newline. -/
theorem advLine_nl (l co : Int) : advLine ['\n'] l co = (l + 1, 1) := by
  simp [advLine]

/-- Number-rule characters are not newlines. -/
theorem isNumChar_ne_nl (ch : Char) (h : isNumChar ch = true) : ch ≠ '\n' := by
  intro hn
  subst hn
  exact absurd h (by decide)

/-- Identifier characters are not newlines. -/
theorem isAlnumUnd_ne_nl (ch : Char) (h : isAlnumUnd ch = true) : ch ≠ '\n' := by
  intro hn
  subst hn
  exact absurd h (by decide)

/-- Master induction for the lexer: given enough fuel the scan never runs
out of fuel, and any `unexpectedChar` error names a character that starts no
lexical rule, reported — for sources without `"` or `/` characters — at the
character's exact line/column. -/
theorem tokenizeAux_err_spec :
    ∀ (f : Nat) (cs : List Char) (l co : Int) (acc : List Token), cs.length < f →
      (DslParser.tokenizeAux f cs l co acc ≠ .error .fuel) ∧
      (∀ (c' : Char) (l' co' : Int),
        DslParser.tokenizeAux f cs l co acc = .error (.unexpectedChar c' l' co') →
        notRuleStart c' ∧
        ((∀ ch ∈ cs, ch ≠ '"' ∧ ch ≠ '/') →
          ∃ i, i < cs.length ∧ cs.getD i ' ' = c' ∧ (l', co') = advLine (cs.take i) l co)) := by
  intro f
  induction f with
  | zero =>
    intro cs l co acc h
    exact absurd h (Nat.not_lt_zero _)
  | succ f ih =>
    intro cs l co acc hlen
    match cs with
    | [] =>
      constructor
      · simp [DslParser.tokenizeAux]
      · intro c' l' co' heq
        simp [DslParser.tokenizeAux] at heq
    | c :: rest =>
      by_cases h1 : isWsChar c
      · by_cases h2 : c = '\n'
        · have heq : DslParser.tokenizeAux (f + 1) (c :: rest) l co acc =
              DslParser.tokenizeAux f rest (l + 1) 1 acc := by
            rw [DslParser.tokenizeAux.eq_def]
            simp +decide [h1, h2]
          obtain ⟨ihne, iherr⟩ := ih rest (l + 1) 1 acc (by simp at hlen ⊢; omega)
          rw [heq]
          refine ⟨ihne, fun c' l' co' heq' => ?_⟩
          obtain ⟨hrule, hpos⟩ := iherr c' l' co' heq'
          refine ⟨hrule, fun hnq => ?_⟩
          subst h2
          exact errConvert ['\n'] rest l co (l + 1) 1 c' l' co' (advLine_nl l co)
            (hpos (fun ch hch => hnq ch (List.Mem.tail _ hch)))
        · have heq : DslParser.tokenizeAux (f + 1) (c :: rest) l co acc =
              DslParser.tokenizeAux f rest l (co + 1) acc := by
            rw [DslParser.tokenizeAux.eq_def]
            simp +decide [h1, h2]
          obtain ⟨ihne, iherr⟩ := ih rest l (co + 1) acc (by simp at hlen ⊢; omega)
          rw [heq]
          refine ⟨ihne, fun c' l' co' heq' => ?_⟩
          obtain ⟨hrule, hpos⟩ := iherr c' l' co' heq'
          refine ⟨hrule, fun hnq => ?_⟩
          exact errConvert [c] rest l co l (co + 1) c' l' co' (advLine_one c l co h2)
            (hpos (fun ch hch => hnq ch (List.Mem.tail _ hch)))
      · by_cases h3 : c = '/' ∧ rest.head? = some '/'
        · have heq : DslParser.tokenizeAux (f + 1) (c :: rest) l co acc =
              DslParser.tokenizeAux f (rest.tail.dropWhile (fun ch => ch ≠ '\n')) l
                (co + (("//" ++ String.mk (rest.tail.takeWhile (fun ch => ch ≠ '\n'))).length : Int))
                (acc ++ [⟨.COMMENT, "//" ++ String.mk (rest.tail.takeWhile (fun ch => ch ≠ '\n')),
                  l, co⟩]) := by
            rw [DslParser.tokenizeAux.eq_def]
            simp +decide [h1, h3]
          have hrem : (rest.tail.dropWhile (fun ch => ch ≠ '\n')).length < f := by
            have hd := (List.dropWhile_sublist (l := rest.tail) (fun ch => ch ≠ '\n')).length_le
            have ht := List.length_tail rest
            simp at hlen
            omega
          obtain ⟨ihne, iherr⟩ := ih _ _ _ _ hrem
          rw [heq]
          refine ⟨ihne, fun c' l' co' heq' => ?_⟩
          obtain ⟨hrule, hpos⟩ := iherr c' l' co' heq'
          refine ⟨hrule, fun hnq => ?_⟩
          exact absurd h3.1 (hnq c (List.Mem.head _)).2
        · by_cases h4 : c = '/' ∧ rest.head? = some '*'
          · have heq : DslParser.tokenizeAux (f + 1) (c :: rest) l co acc =
                DslParser.tokenizeAux f ((DslParser.scanBlock rest.tail l co).rest.drop 2)
                  (DslParser.scanBlock rest.tail l co).line
                  ((DslParser.scanBlock rest.tail l co).col +
                    (("/*" ++ String.mk (DslParser.scanBlock rest.tail l co).content ++
                      (if (DslParser.scanBlock rest.tail l co).rest = [] then "" else "*/")).length : Int))
                  (acc ++ [⟨.COMMENT, "/*" ++ String.mk (DslParser.scanBlock rest.tail l co).content ++
                    (if (DslParser.scanBlock rest.tail l co).rest = [] then "" else "*/"),
                    (DslParser.scanBlock rest.tail l co).line,
                    (DslParser.scanBlock rest.tail l co).col⟩]) := by
              rw [DslParser.tokenizeAux.eq_def]
              simp +decide [h1, h3, h4]
            have hrem : ((DslParser.scanBlock rest.tail l co).rest.drop 2).length < f := by
              have hs := scanBlock_rest_le rest.tail l co
              have ht := List.length_tail rest
              have hd := List.length_drop 2 (DslParser.scanBlock rest.tail l co).rest
              simp at hlen
              omega
            obtain ⟨ihne, iherr⟩ := ih _ _ _ _ hrem
            rw [heq]
            refine ⟨ihne, fun c' l' co' heq' => ?_⟩
            obtain ⟨hrule, hpos⟩ := iherr c' l' co' heq'
            refine ⟨hrule, fun hnq => ?_⟩
            exact absurd h4.1 (hnq c (List.Mem.head _)).2
          · by_cases h5 : c = '{'
            · have heq : DslParser.tokenizeAux (f + 1) (c :: rest) l co acc =
                  DslParser.tokenizeAux f rest l (co + 1)
                    (acc ++ [⟨.LEFT_BRACE, "\x7b", l, co⟩]) := by
                rw [DslParser.tokenizeAux.eq_def]
                simp +decide [h1, h3, h4, h5]
              obtain ⟨ihne, iherr⟩ := ih rest l (co + 1) _ (by simp at hlen ⊢; omega)
              rw [heq]
              refine ⟨ihne, fun c' l' co' heq' => ?_⟩
              obtain ⟨hrule, hpos⟩ := iherr c' l' co' heq'
              refine ⟨hrule, fun hnq => ?_⟩
              exact errConvert [c] rest l co l (co + 1) c' l' co'
                (advLine_one c l co (by subst h5; decide))
                (hpos (fun ch hch => hnq ch (List.Mem.tail _ hch)))
            · by_cases h6 : c = '}'
              · have heq : DslParser.tokenizeAux (f + 1) (c :: rest) l co acc =
                    DslParser.tokenizeAux f rest l (co + 1)
                      (acc ++ [⟨.RIGHT_BRACE, "\x7d", l, co⟩]) := by
                  rw [DslParser.tokenizeAux.eq_def]
                  simp +decide [h1, h3, h4, h5, h6]
                obtain ⟨ihne, iherr⟩ := ih rest l (co + 1) _ (by simp at hlen ⊢; omega)
                rw [heq]
                refine ⟨ihne, fun c' l' co' heq' => ?_⟩
                obtain ⟨hrule, hpos⟩ := iherr c' l' co' heq'
                refine ⟨hrule, fun hnq => ?_⟩
                exact errConvert [c] rest l co l (co + 1) c' l' co'
                  (advLine_one c l co (by subst h6; decide))
                  (hpos (fun ch hch => hnq ch (List.Mem.tail _ hch)))
              · by_cases h7 : c = '('
                · have heq : DslParser.tokenizeAux (f + 1) (c :: rest) l co acc =
                      DslParser.tokenizeAux f rest l (co + 1)
                        (acc ++ [⟨.LEFT_PAREN, "(", l, co⟩]) := by
                    rw [DslParser.tokenizeAux.eq_def]
                    simp +decide [h1, h3, h4, h5, h6, h7]
                  obtain ⟨ihne, iherr⟩ := ih rest l (co + 1) _ (by simp at hlen ⊢; omega)
                  rw [heq]
                  refine ⟨ihne, fun c' l' co' heq' => ?_⟩
                  obtain ⟨hrule, hpos⟩ := iherr c' l' co' heq'
                  refine ⟨hrule, fun hnq => ?_⟩
                  exact errConvert [c] rest l co l (co + 1) c' l' co'
                    (advLine_one c l co (by subst h7; decide))
                    (hpos (fun ch hch => hnq ch (List.Mem.tail _ hch)))
                · by_cases h8 : c = ')'
                  · have heq : DslParser.tokenizeAux (f + 1) (c :: rest) l co acc =
                        DslParser.tokenizeAux f rest l (co + 1)
                          (acc ++ [⟨.RIGHT_PAREN, ")", l, co⟩]) := by
                      rw [DslParser.tokenizeAux.eq_def]
                      simp +decide [h1, h3, h4, h5, h6, h7, h8]
                    obtain ⟨ihne, iherr⟩ := ih rest l (co + 1) _ (by simp at hlen ⊢; omega)
                    rw [heq]
                    refine ⟨ihne, fun c' l' co' heq' => ?_⟩
                    obtain ⟨hrule, hpos⟩ := iherr c' l' co' heq'
                    refine ⟨hrule, fun hnq => ?_⟩
                    exact errConvert [c] rest l co l (co + 1) c' l' co'
                      (advLine_one c l co (by subst h8; decide))
                      (hpos (fun ch hch => hnq ch (List.Mem.tail _ hch)))
                  · by_cases h9 : c = '['
                    · have heq : DslParser.tokenizeAux (f + 1) (c :: rest) l co acc =
                          DslParser.tokenizeAux f rest l (co + 1)
                            (acc ++ [⟨.LEFT_BRACKET, "[", l, co⟩]) := by
                        rw [DslParser.tokenizeAux.eq_def]
                        simp +decide [h1, h3, h4, h5, h6, h7, h8, h9]
                      obtain ⟨ihne, iherr⟩ := ih rest l (co + 1) _ (by simp at hlen ⊢; omega)
                      rw [heq]
                      refine ⟨ihne, fun c' l' co' heq' => ?_⟩
                      obtain ⟨hrule, hpos⟩ := iherr c' l' co' heq'
                      refine ⟨hrule, fun hnq => ?_⟩
                      exact errConvert [c] rest l co l (co + 1) c' l' co'
                        (advLine_one c l co (by subst h9; decide))
                        (hpos (fun ch hch => hnq ch (List.Mem.tail _ hch)))
                    · by_cases h10 : c = ']'
                      · have heq : DslParser.tokenizeAux (f + 1) (c :: rest) l co acc =
                            DslParser.tokenizeAux f rest l (co + 1)
                              (acc ++ [⟨.RIGHT_BRACKET, "]", l, co⟩]) := by
                          rw [DslParser.tokenizeAux.eq_def]
                          simp +decide [h1, h3, h4, h5, h6, h7, h8, h9, h10]
                        obtain ⟨ihne, iherr⟩ := ih rest l (co + 1) _ (by simp at hlen ⊢; omega)
                        rw [heq]
                        refine ⟨ihne, fun c' l' co' heq' => ?_⟩
                        obtain ⟨hrule, hpos⟩ := iherr c' l' co' heq'
                        refine ⟨hrule, fun hnq => ?_⟩
                        exact errConvert [c] rest l co l (co + 1) c' l' co'
                          (advLine_one c l co (by subst h10; decide))
                          (hpos (fun ch hch => hnq ch (List.Mem.tail _ hch)))
                      · by_cases h11 : c = ':'
                        · have heq : DslParser.tokenizeAux (f + 1) (c :: rest) l co acc =
                              DslParser.tokenizeAux f rest l (co + 1)
                                (acc ++ [⟨.COLON, ":", l, co⟩]) := by
                            rw [DslParser.tokenizeAux.eq_def]
                            simp +decide [h1, h3, h4, h5, h6, h7, h8, h9, h10, h11]
                          obtain ⟨ihne, iherr⟩ := ih rest l (co + 1) _ (by simp at hlen ⊢; omega)
                          rw [heq]
                          refine ⟨ihne, fun c' l' co' heq' => ?_⟩
                          obtain ⟨hrule, hpos⟩ := iherr c' l' co' heq'
                          refine ⟨hrule, fun hnq => ?_⟩
                          exact errConvert [c] rest l co l (co + 1) c' l' co'
                            (advLine_one c l co (by subst h11; decide))
                            (hpos (fun ch hch => hnq ch (List.Mem.tail _ hch)))
                        · by_cases h12 : c = ','
                          · have heq : DslParser.tokenizeAux (f + 1) (c :: rest) l co acc =
                                DslParser.tokenizeAux f rest l (co + 1)
                                  (acc ++ [⟨.COMMA, ",", l, co⟩]) := by
                              rw [DslParser.tokenizeAux.eq_def]
                              simp +decide [h1, h3, h4, h5, h6, h7, h8, h9, h10, h11, h12]
                            obtain ⟨ihne, iherr⟩ := ih rest l (co + 1) _ (by simp at hlen ⊢; omega)
                            rw [heq]
                            refine ⟨ihne, fun c' l' co' heq' => ?_⟩
                            obtain ⟨hrule, hpos⟩ := iherr c' l' co' heq'
                            refine ⟨hrule, fun hnq => ?_⟩
                            exact errConvert [c] rest l co l (co + 1) c' l' co'
                              (advLine_one c l co (by subst h12; decide))
                              (hpos (fun ch hch => hnq ch (List.Mem.tail _ hch)))
                          · by_cases h13 : c = '-' ∧ rest.head? = some '>'
                            · obtain ⟨hc, hh⟩ := h13
                              match rest, hh with
                              | y :: t, hh =>
                                have hy : y = '>' := by simpa using hh
                                have heq : DslParser.tokenizeAux (f + 1) (c :: y :: t) l co acc =
                                    DslParser.tokenizeAux f t l (co + 2)
                                      (acc ++ [⟨.ARROW, "->", l, co⟩]) := by
                                  rw [DslParser.tokenizeAux.eq_def]
                                  simp +decide [h1, h3, h4, h5, h6, h7, h8, h9, h10, h11, h12, hc, hh]
                                obtain ⟨ihne, iherr⟩ := ih t l (co + 2) _ (by simp at hlen ⊢; omega)
                                rw [heq]
                                refine ⟨ihne, fun c' l' co' heq' => ?_⟩
                                obtain ⟨hrule, hpos⟩ := iherr c' l' co' heq'
                                refine ⟨hrule, fun hnq => ?_⟩
                                have hadv : advLine [c, y] l co = (l, co + 2) := by
                                  subst hc
                                  subst hy
                                  simp [advLine]
                                  omega
                                exact errConvert [c, y] t l co l (co + 2) c' l' co' hadv
                                  (hpos (fun ch hch =>
                                    hnq ch (List.Mem.tail _ (List.Mem.tail _ hch))))
                            · by_cases h14 : c = '"'
                              · have heq : DslParser.tokenizeAux (f + 1) (c :: rest) l co acc =
                                    DslParser.tokenizeAux f ((DslParser.scanStr rest l co).rest.drop 1)
                                      (DslParser.scanStr rest l co).line
                                      ((DslParser.scanStr rest l co).col + 1)
                                      (acc ++ [⟨.STRING,
                                        (if (DslParser.scanStr rest l co).rest = []
                                         then String.mk (DslParser.scanStr rest l co).content.dropLast
                                         else String.mk (DslParser.scanStr rest l co).content),
                                        (DslParser.scanStr rest l co).line,
                                        (DslParser.scanStr rest l co).col -
                                          ((if (DslParser.scanStr rest l co).rest = []
                                            then String.mk (DslParser.scanStr rest l co).content.dropLast
                                            else String.mk (DslParser.scanStr rest l co).content).length : Int)
                                          - 2⟩]) := by
                                  rw [DslParser.tokenizeAux.eq_def]
                                  simp +decide [h1, h3, h4, h5, h6, h7, h8, h9, h10, h11, h12, h13, h14]
                                have hrem : ((DslParser.scanStr rest l co).rest.drop 1).length < f := by
                                  have hs := scanStr_rest_le rest l co
                                  have hd := List.length_drop 1 (DslParser.scanStr rest l co).rest
                                  simp at hlen
                                  omega
                                obtain ⟨ihne, iherr⟩ := ih _ _ _ _ hrem
                                rw [heq]
                                refine ⟨ihne, fun c' l' co' heq' => ?_⟩
                                obtain ⟨hrule, hpos⟩ := iherr c' l' co' heq'
                                refine ⟨hrule, fun hnq => ?_⟩
                                exact absurd h14 (hnq c (List.Mem.head _)).1
                              · by_cases h15 : isDigitChar c
                                · have heq : DslParser.tokenizeAux (f + 1) (c :: rest) l co acc =
                                      DslParser.tokenizeAux f ((c :: rest).dropWhile isNumChar) l
                                        (co + ((String.mk ((c :: rest).takeWhile isNumChar)).length : Int))
                                        (acc ++ [⟨.NUMBER, String.mk ((c :: rest).takeWhile isNumChar),
                                          l, co⟩]) := by
                                    rw [DslParser.tokenizeAux.eq_def]
                                    simp +decide [h1, h3, h4, h5, h6, h7, h8, h9, h10, h11, h12, h13, h14, h15]
                                  have hpc : isNumChar c = true := by
                                    simp [isNumChar, h15]
                                  have hdw : (c :: rest).dropWhile isNumChar = rest.dropWhile isNumChar := by
                                    simp [List.dropWhile_cons, hpc]
                                  have hrem : ((c :: rest).dropWhile isNumChar).length < f := by
                                    rw [hdw]
                                    have := (List.dropWhile_sublist (l := rest) isNumChar).length_le
                                    simp at hlen
                                    omega
                                  obtain ⟨ihne, iherr⟩ := ih _ _ _ _ hrem
                                  rw [heq]
                                  refine ⟨ihne, fun c' l' co' heq' => ?_⟩
                                  obtain ⟨hrule, hpos⟩ := iherr c' l' co' heq'
                                  refine ⟨hrule, fun hnq => ?_⟩
                                  rw [← List.takeWhile_append_dropWhile (p := isNumChar) (l := c :: rest)]
                                  have hadv : advLine ((c :: rest).takeWhile isNumChar) l co =
                                      (l, co + ((String.mk ((c :: rest).takeWhile isNumChar)).length : Int)) := by
                                    apply advLine_nonl
                                    intro ch hch
                                    exact isNumChar_ne_nl ch (List.mem_takeWhile_imp hch)
                                  refine errConvert _ _ l co _ _ c' l' co' hadv ?_
                                  apply hpos
                                  intro ch hch
                                  exact hnq ch (by
                                    rw [← List.takeWhile_append_dropWhile (p := isNumChar) (l := c :: rest)]
                                    exact List.mem_append_right _ hch)
                                · by_cases h16 : isAlphaUnd c
                                  · have heq : DslParser.tokenizeAux (f + 1) (c :: rest) l co acc =
                                        DslParser.tokenizeAux f ((c :: rest).dropWhile isAlnumUnd) l
                                          (co + ((String.mk ((c :: rest).takeWhile isAlnumUnd)).length : Int))
                                          (acc ++ [⟨KEYWORDS (String.mk ((c :: rest).takeWhile isAlnumUnd)),
                                            String.mk ((c :: rest).takeWhile isAlnumUnd), l, co⟩]) := by
                                      rw [DslParser.tokenizeAux.eq_def]
                                      simp +decide [h1, h3, h4, h5, h6, h7, h8, h9, h10, h11, h12, h13, h14, h15, h16]
                                    have hpc : isAlnumUnd c = true := by
                                      simp [isAlnumUnd, h16]
                                    have hdw : (c :: rest).dropWhile isAlnumUnd = rest.dropWhile isAlnumUnd := by
                                      simp [List.dropWhile_cons, hpc]
                                    have hrem : ((c :: rest).dropWhile isAlnumUnd).length < f := by
                                      rw [hdw]
                                      have := (List.dropWhile_sublist (l := rest) isAlnumUnd).length_le
                                      simp at hlen
                                      omega
                                    obtain ⟨ihne, iherr⟩ := ih _ _ _ _ hrem
                                    rw [heq]
                                    refine ⟨ihne, fun c' l' co' heq' => ?_⟩
                                    obtain ⟨hrule, hpos⟩ := iherr c' l' co' heq'
                                    refine ⟨hrule, fun hnq => ?_⟩
                                    rw [← List.takeWhile_append_dropWhile (p := isAlnumUnd) (l := c :: rest)]
                                    have hadv : advLine ((c :: rest).takeWhile isAlnumUnd) l co =
                                        (l, co + ((String.mk ((c :: rest).takeWhile isAlnumUnd)).length : Int)) := by
                                      apply advLine_nonl
                                      intro ch hch
                                      exact isAlnumUnd_ne_nl ch (List.mem_takeWhile_imp hch)
                                    refine errConvert _ _ l co _ _ c' l' co' hadv ?_
                                    apply hpos
                                    intro ch hch
                                    exact hnq ch (by
                                      rw [← List.takeWhile_append_dropWhile (p := isAlnumUnd) (l := c :: rest)]
                                      exact List.mem_append_right _ hch)
                                  · have heq : DslParser.tokenizeAux (f + 1) (c :: rest) l co acc =
                                        .error (.unexpectedChar c l co) := by
                                      rw [DslParser.tokenizeAux.eq_def]
                                      simp +decide [h1, h3, h4, h5, h6, h7, h8, h9, h10, h11, h12, h13, h14, h15, h16]
                                    rw [heq]
                                    constructor
                                    · intro hcontra
                                      simp at hcontra
                                    · intro c' l' co' heq'
                                      have hc : c' = c ∧ l' = l ∧ co' = co := by
                                        simpa using heq'.symm
                                      obtain ⟨rfl, rfl, rfl⟩ := hc
                                      constructor
                                      · refine ⟨by simpa using h1, by simpa using h15,
                                          by simpa using h16, ?_, h14⟩
                                        simp only [List.mem_cons, List.not_mem_nil, or_false]
                                        push_neg
                                        exact ⟨h5, h6, h7, h8, h9, h10, h11, h12⟩
                                      · intro _
                                        exact ⟨0, by simp, rfl, by simp [advLine]⟩

/-- C7 (corrected): on any input, `tokenize` never runs out of fuel, and when
it aborts with `unexpectedChar c l co` — returning an error, never a partial
token list — the offending character `c` indeed starts no lexical rule, and
for inputs free of `"` and `/` characters the reported `(l, co)` is the exact
line and column of the first such character. (The original claim's "exact
line and column" clause fails on general inputs: after a string literal the
column counter is off by one, and a backslash-escaped newline inside a
string is not counted as a line break, so even the reported line can be
wrong — see `tokenize_column_counterexample` for both.) -/
theorem tokenize_err_spec (src : String) :
    (DslParser.tokenize src ≠ .error .fuel) ∧
    (∀ (c : Char) (l co : Int),
      DslParser.tokenize src = .error (.unexpectedChar c l co) →
      notRuleStart c ∧
      ((∀ ch ∈ src.data, ch ≠ '"' ∧ ch ≠ '/') →
        ∃ i, i < src.data.length ∧ src.data.getD i ' ' = c ∧
          (l, co) = advLine (src.data.take i) 1 1)) := by
  have h := tokenizeAux_err_spec (src.length + 1) src.data 1 1 []
    (by show src.data.length < src.data.length + 1; omega)
  exact h

/-- Witness for C7: the input `#` aborts at the unsupported character `#`,
which starts no lexical rule, reported at its exact position line 1 column 1. -/
theorem tokenize_err_spec_witness :
    DslParser.tokenize "#" = .error (.unexpectedChar '#' 1 1) ∧
    notRuleStart '#' ∧
    (∃ i, i < "#".data.length ∧ "#".data.getD i ' ' = '#' ∧
      ((1 : Int), (1 : Int)) = advLine ("#".data.take i) 1 1) := by
  have heq : DslParser.tokenize "#" = .error (.unexpectedChar '#' 1 1) := by rfl
  have h := (tokenize_err_spec "#").2 '#' 1 1 heq
  exact ⟨heq, h.1, h.2 (by decide)⟩

/-- Counterexample for C7 as stated: the reported position is not exact on
general inputs.  On `"a" #` the lexer reports the unsupported character `#`
at column 4, but the character actually sits at column 5 (it is the fifth
character of line 1, as the position-tracking function `advLine` confirms):
after closing a string literal the lexer's column counter is off by one.
And on a string literal containing a backslash-escaped newline followed by
` #`, the lexer reports the `#` at line 1 column 5, but the character
actually sits at line 2 column 3: the escape path consumes the newline
without counting a line break, so even the reported line is wrong. -/
theorem tokenize_column_counterexample :
    (DslParser.tokenize "\"a\" #" = .error (.unexpectedChar '#' 1 4) ∧
     "\"a\" #".data.getD 4 ' ' = '#' ∧
     advLine ("\"a\" #".data.take 4) 1 1 = (1, 5) ∧
     (4 : Int) ≠ 5) ∧
    (DslParser.tokenize (String.mk ['"', '\\', '\n', '"', ' ', '#']) =
       .error (.unexpectedChar '#' 1 5) ∧
     (String.mk ['"', '\\', '\n', '"', ' ', '#']).data.getD 5 ' ' = '#' ∧
     advLine ((String.mk ['"', '\\', '\n', '"', ' ', '#']).data.take 5) 1 1 = (2, 3) ∧
     ((1 : Int), (5 : Int)) ≠ ((2 : Int), (3 : Int))) := by
  refine ⟨⟨by rfl, by rfl, ?_, by decide⟩, by rfl, by rfl, ?_, by decide⟩
  · show advLine ['"', 'a', '"', ' '] 1 1 = (1, 5)
    simp [advLine]
  · show advLine ['"', '\\', '\n', '"', ' '] 1 1 = (2, 3)
    simp [advLine]

end Flowgram
